import Mathlib

/-!
Verification development for `stubmaker` (`src/stubmaker/pystub.py`), a
Python program-stub generator.  The definitions below are a shallow
embedding of the source: each Python helper and the `pystub` function are
translated into executable Lean functions; each `outstream.write(...)`
call becomes one string "chunk" appended to the list of chunks of the file
being written, so that the content of every artifact on disk (including a
partially-written artifact left behind by a mid-generation exception) is
the concatenation of its chunk list.  Python exceptions that abort
generation (AttributeError on a `None` argument list, IndexError on an
empty descriptor name, TypeError on `'config' in None`) are modelled by a
`GenError` value recorded together with the chunks written so far.
-/

namespace Stubmaker

/-- Boolean test of whether a character list ends with the character `c`
(Python `str.endswith` for a one-character suffix). -/
def endsw (c : Char) : List Char → Bool
  | [] => false
  | d :: rest => if rest.isEmpty then d == c else endsw c rest

/-- Removal of a single trailing character `c` when present (Python
`str.removesuffix` for a one-character suffix). -/
def rmsfx (c : Char) : List Char → List Char
  | [] => []
  | d :: rest =>
    if rest.isEmpty then (if d == c then [] else [d]) else d :: rmsfx c rest

/-- Python `s.endswith(c)` for a one-character suffix `c`. -/
def endswith (s : String) (c : Char) : Bool := endsw c s.data

/-- Python `s.removesuffix(c)` for a one-character suffix `c`. -/
def removesuffix (s : String) (c : Char) : String := ⟨rmsfx c s.data⟩

/-- Source `without_flags` (pystub.py:61-62):
`arg.removesuffix('+').removesuffix('*').removesuffix(':').removesuffix('%') if arg else arg`. -/
def without_flags (arg : String) : String :=
  if arg = "" then arg
  else removesuffix (removesuffix (removesuffix (removesuffix arg '+') '*') ':') '%'

/-- Lift of `without_flags` to an optional string; Python `without_flags(None)`
returns `None` because `None` is falsy in the guard of line 62. -/
def without_flagsO (arg : Option String) : Option String := arg.map without_flags

/-- Source `arg_name` (pystub.py:64-66): `arg.split('.')[0]`. -/
def arg_name (arg : String) : String := ⟨arg.data.takeWhile (fun c => c != '.')⟩

/-- Source `arg_type` (pystub.py:68-70):
`arg.split('.')[1] if '.' in arg else None` (the second dot-separated field). -/
def arg_type (arg : String) : Option String :=
  if arg.data.contains '.' then
    some ⟨((arg.data.dropWhile (fun c => c != '.')).drop 1).takeWhile (fun c => c != '.')⟩
  else none

/-- Keys of a Python-dict association list (insertion ordered). -/
def dictKeys (d : List (String × Option String)) : List String := d.map Prod.fst

/-- Python `k in d` for a dict modelled as an ordered association list. -/
def dictHas (d : List (String × Option String)) (k : String) : Bool :=
  d.any (fun p => p.1 == k)

/-- Python `d[k] = v`: overwrite in place when the key exists (keeping its
insertion position), otherwise append at the end. -/
def dictInsert (d : List (String × Option String)) (k : String) (v : Option String) :
    List (String × Option String) :=
  if dictHas d k then d.map (fun p => if p.1 == k then (k, v) else p) else d ++ [(k, v)]

/-- Python `d.get(k)` (defaulting to `None`). -/
def dictGet (d : List (String × Option String)) (k : String) : Option String :=
  match d.find? (fun p => p.1 == k) with
  | some p => p.2
  | none => none

/-- Python `d.values()` in insertion order. -/
def dictValues (d : List (String × Option String)) : List (Option String) :=
  d.map Prod.snd

/-- Source pystub.py:89-90: the `arg_types` dict comprehension
`{without_flags(arg_name(arg)): without_flags(arg_type(arg)) for arg in (args or {})}`. -/
def computeArgTypes (args : List String) : List (String × Option String) :=
  args.foldl
    (fun d arg => dictInsert d (without_flags (arg_name arg)) (without_flagsO (arg_type arg))) []

/-- Python `sep.join(l)`. -/
def pyJoin (sep : String) : List String → String
  | [] => ""
  | [x] => x
  | x :: y :: xs => x ++ sep ++ pyJoin sep (y :: xs)

/-- The four descriptor modifier suffix characters. -/
inductive PyMod : Type
  | plus
  | star
  | colon
  | percent
deriving DecidableEq, Repr

/-- Character of a modifier. -/
def modChar : PyMod → Char
  | .plus => '+'
  | .star => '*'
  | .colon => ':'
  | .percent => '%'

/-- Extra `add_argument` keyword text attached for a modifier
(pystub.py:141-149). -/
def modAction : PyMod → String
  | .plus => ", action=\x27append\x27"
  | .star => ", nargs=\x27*\x27"
  | .colon => ", action=\x27store_true\x27"
  | .percent => ""

/-- Python truthiness of `argtype and argtype.endswith(c)`: `None` and the
empty string are falsy (and the empty string ends with no character). -/
def tEnds (ty : Option String) (c : Char) : Bool :=
  match ty with
  | some t => endswith t c
  | none => false

/-- The modifier-branch selection of the CLI loop (pystub.py:141-154): the
four branches are tried in the order `+`, `*`, `:`, `%`; the first two and
the last are each tested on the name part and then on the type part, while
`:` is tested on the name part only. -/
def pickMod (nm : String) (ty : Option String) : Option PyMod :=
  if endswith nm '+' || tEnds ty '+' then some .plus
  else if endswith nm '*' || tEnds ty '*' then some .star
  else if endswith nm ':' then some .colon
  else if endswith nm '%' || tEnds ty '%' then some .percent
  else none

/-- The final name a descriptor token gets inside the CLI loop: its name
part with the matched modifier character (if any) removed (pystub.py:141-155). -/
def loopStrip (t : String) : String :=
  let nm := arg_name t
  match pickMod nm (arg_type t) with
  | some m => removesuffix nm (modChar m)
  | none => nm

/-- Generator-time Python exceptions that abort `pystub`. -/
inductive GenError : Type
  | attrErrorNone
  | idxError
  | typeErrorNone
deriving DecidableEq, Repr

/-- Python set-insert for the `short_args` set of used short option names;
only membership is ever queried. -/
def sadd (c : Char) (l : List Char) : List Char := if l.contains c then l else c :: l

/-- Mutable state threaded through the CLI-rendering loop of pystub.py:129-158:
the `arg_types` dict, the `input_args` list and the `short_args` set. -/
structure CliState : Type where
  argTypes : List (String × Option String)
  inputArgs : List String
  shortArgs : List Char
deriving DecidableEq, Repr

/-- Result of one successful iteration of the CLI loop. -/
structure CliOut : Type where
  newArg : String
  st : CliState
  chunk : String
deriving DecidableEq, Repr

/-- One iteration of the CLI loop (pystub.py:130-158) on the token `t` at
index `iarg` of an argument list of length `n`.  `arg[0]` on an empty name
raises IndexError. -/
def cliStep (n iarg : Nat) (st : CliState) (t : String) : Except GenError CliOut :=
  let ty := arg_type t
  let nm := arg_name t
  match nm.data with
  | [] => .error .idxError
  | c :: _ =>
    let shortStr : String :=
      if !st.shortArgs.contains c then ⟨[c]⟩
      else if !st.shortArgs.contains c.toUpper then ⟨[c.toUpper]⟩
      else ""
    let extra := ", \"-" ++ shortStr ++ "\""
    let sa := sadd c st.shortArgs
    let (newArg, action, at2, ia2) :=
      match pickMod nm ty with
      | some PyMod.plus => (removesuffix nm '+', modAction .plus, st.argTypes, st.inputArgs)
      | some PyMod.star => (removesuffix nm '*', modAction .star, st.argTypes, st.inputArgs)
      | some PyMod.colon =>
        let a := removesuffix nm ':'
        (a, modAction .colon, dictInsert st.argTypes a (some "bool"), st.inputArgs ++ [a])
      | some PyMod.percent =>
        let a := removesuffix nm '%'
        (a, modAction .percent, st.argTypes, st.inputArgs ++ [a])
      | none => (nm, "", st.argTypes, st.inputArgs)
    let chunk := "    parser.add_argument(\"" ++ (if iarg == n - 1 then "" else "--")
      ++ newArg ++ "\"" ++ extra ++ action ++ ")\n"
    .ok ⟨newArg, ⟨at2, ia2, sa⟩, chunk⟩

/-- Outcome of running the whole CLI loop: the rewritten argument list, the
final loop state, the emitted chunks, and the IndexError (if any) that
aborted the loop. -/
structure LoopOut : Type where
  newArgs : List String
  st : CliState
  chunks : List String
  err : Option GenError
deriving DecidableEq, Repr

/-- The CLI loop (pystub.py:130-158).  On an IndexError the remaining
elements are left unrewritten and no further chunk is emitted. -/
def cliLoop (n : Nat) : Nat → CliState → List String → LoopOut
  | _, st, [] => ⟨[], st, [], Option.none⟩
  | iarg, st, t :: rest =>
    match cliStep n iarg st t with
    | .error e => ⟨t :: rest, st, [], some e⟩
    | .ok o =>
      let r := cliLoop n (iarg + 1) o.st rest
      ⟨o.newArg :: r.newArgs, r.st, o.chunk :: r.chunks, r.err⟩

/-- The short-option text chosen for a descriptor whose name starts with
`c` when the set of already-recorded short names is `used` (the expression
of pystub.py:133-138): the first letter if unrecorded, else its upper-cased
form if unrecorded, else the empty string (rendered as a bare `-`). -/
def shortFor (used : List Char) (c : Char) : String :=
  if !used.contains c then ⟨[c]⟩
  else if !used.contains c.toUpper then ⟨[c.toUpper]⟩
  else ""

/-- The greedy short-option allocation over a whole token list
(pystub.py:129-139): each token contributes `shortFor` of its name's first
character, and only that first character (never the upper-cased fallback)
is recorded into the used-set for the following tokens. -/
def shortAllocTokens (used : List Char) : List String → List String
  | [] => []
  | t :: rest =>
    let c := (arg_name t).data.headD ' '
    shortFor used c :: shortAllocTokens (sadd c used) rest

/-- The shape of one `parser.add_argument` line of the generated CLI block
(pystub.py:156-158) for the finalized argument `a`: a dash prefix that is
`--` except for the last argument, the argument name, the short-option text
and the action text. -/
def argLineRel (a ch : String) : Prop :=
  ∃ d ex ac, (d = "" ∨ d = "--")
    ∧ ch = "    parser.add_argument(\"" ++ d ++ a ++ "\"" ++ ex ++ ac ++ ")\n"

/-- Python `os.path.basename` for the paths exercised here. -/
def basename (p : String) : String :=
  ⟨(p.data.reverse.takeWhile (fun c => c != '/')).reverse⟩

/-- Python `os.path.dirname` for relative paths without trailing slashes
(the root-path corner cases of `os.path` are not exercised). -/
def dirname (p : String) : String :=
  ⟨((p.data.reverse.dropWhile (fun c => c != '/')).drop 1).reverse⟩

/-- Root part of Python `os.path.splitext`: everything before the last dot,
except that a leading run of dots never starts an extension. -/
def splitextRoot (b : String) : String :=
  let l := b.data
  let lead := l.takeWhile (fun c => c == '.')
  let rest := l.drop lead.length
  if rest.contains '.' then
    ⟨lead ++ ((rest.reverse.dropWhile (fun c => c != '.')).drop 1).reverse⟩
  else b

/-- Python `os.path.join` for the simple relative paths used here. -/
def pathJoin (a b : String) : String :=
  if a == "" then b else if endswith a '/' then a ++ b else a ++ "/" ++ b

/-- The generated program's name: `os.path.splitext(os.path.basename(output))[0]`
(pystub.py:96). -/
def progName (output : String) : String := splitextRoot (basename output)

/-- Source `TYPE_READERS` lookup (pystub.py:72-77, 208):
`TYPE_READERS.get(argtype, "%s_stream.read()") % argname`. -/
def typeReader (ty : Option String) (nm : String) : String :=
  match ty with
  | some "csv" => "[f(x) for x in csv.DictReader(" ++ nm ++ "_stream)]"
  | some "json" => "json.load(" ++ nm ++ "_stream)"
  | some "yaml" => "yaml.safeload(" ++ nm ++ "_stream)"
  | some "bool" => nm
  | _ => nm ++ "_stream.read()"

/-- Everything `pystub` leaves behind: whether the program file was created,
the chunks written to the program file, to the test stub, and to the config
template (empty lists when a file was never created), the directories made,
the aborting exception (if any), and the final values of the Python locals
`args`, `arg_types`, `input_args`, the effective capability flags, `has_config`,
and the core-logic parameter list. -/
structure PystubResult : Type where
  progCreated : Bool
  progChunks : List String
  testChunks : List String
  confChunks : List String
  dirsMade : List String
  error : Option GenError
  finalArgs : Option (List String)
  argTypes : List (String × Option String)
  inputArgs : List String
  csvEff : Bool
  jsonEff : Bool
  yamlEff : Bool
  hasConfig : Bool
  coreParams : List String
deriving DecidableEq, Repr

/-- Python truthiness of the `args` variable (`None` and `[]` are falsy). -/
def truthy : Option (List String) → Bool
  | Option.none => false
  | some l => !l.isEmpty

/-- The remainder of `pystub` once the argument list `l3` is known to be an
actual list (pystub.py:161-261): the core-logic stub, the optional API block,
the orchestration wrapper, the optional config wrapper, the entry point, the
test stub and the optional config template.  `sofar` holds the program-file
chunks already written (header and CLI block). -/
def pystubSuccess (l3 : List String) (at1 : List (String × Option String))
    (ia1 : List String) (sofar : List String)
    (csvE jsonE yamlE fileinput postgresql server : Bool)
    (output : String) (dirs0 : List String) : PystubResult :=
  let prog := progName output
  let hc := l3.contains "config" && yamlE
  let list1 := (dictKeys at1).filter (fun k => k != "config" && k != "output")
  let list2 := l3.filter (fun a => !(dictHas at1 a) && a != "output")
  let coreParams := list1 ++ list2
  let coreChunk := "def " ++ prog ++ "(" ++ pyJoin ", " coreParams
    ++ (if hc then ", config_data" else "") ++ (if postgresql then ", conn" else "")
    ++ "):\n    \"\"\"The core logic of the program, usable from the command line or as a python function.\"\"\"\n"
  let serverChunks := if server then
      [prog ++ "_app = flask.Flask(\x27" ++ prog ++ "\x27)\n",
       "@" ++ prog ++ "_app.route(\x27/" ++ prog ++ "/\x27, methods=[\x27GET\x27, \x27POST\x27])\n",
       "def respond_" ++ prog ++ "():\n    return flask.jsonify(" ++ prog
         ++ "(**flask.request.json()))\n\n\n"]
    else []
  let orchHeader := "def " ++ prog ++ "_" ++ (if hc then "on_files" else "main")
    ++ "(" ++ pyJoin ", " l3 ++ (if hc then ", config_data" else "") ++ "):\n"
  let openItems := (ia1.filter (fun a =>
      !(dictGet at1 a == some "bool" || dictGet at1 a == some "int"
        || dictGet at1 a == some "float") && a != "config")).map
    (fun a => "open(" ++ arg_name a ++ ") as " ++ arg_name a ++ "_stream")
  let pgOpen := ", psycopg.connect(\"dbname=%s user=%s\" % (config[\"database\"], config[\"datauser\"])) as conn"
  let inputChunk : List String :=
    if fileinput then ["    with fileinput.input(files=inputspec) as instream:\n"]
    else if !ia1.isEmpty then
      ["    with " ++ pyJoin ", " openItems ++ (if postgresql then pgOpen else "") ++ ":\n"]
    else ["        data = instream.read()\n"]
  let readerChunks := (at1.filter (fun p => p.1 != "config" && p.1 != "output")).map
    (fun p => "            " ++ p.1 ++ "=" ++ typeReader p.2 p.1 ++ ",\n")
  let callChunks := ["        result = " ++ prog ++ "(\n"] ++ readerChunks
    ++ (if postgresql then ["            conn,\n"] else [])
    ++ (if hc then ["            config_data=config_data,\n"] else [])
    ++ ["        )\n"]
  let outputChunks := if l3.contains "output" then
      ["    with open(output, \x27w\x27) as outstream:\n", "        result.save(outstream)\n"]
    else []
  let orchBody := if !l3.isEmpty then
      inputChunk ++ callChunks ++ outputChunks ++ ["    return result\n"]
    else ["    pass\n\n"]
  let configMainChunks := if hc then
      ["\n\ndef " ++ prog ++ "_main(**args):\n",
       "    with open(args[\x27config\x27]) as confstream:\n",
       "        config = yaml.safeload(confstream)\n",
       "        config[\x27args\x27].update(\x7bv: os.environ[v.upper()] for v in config[\x27args\x27].keys() if v.upper() in os.environ\x7d).update(args)\n"]
      ++ (if server then
        ["        if config[\x27args\x27][\x27server\x27]:\n",
         "            " ++ prog ++ "_app.run(host=args[\x27host\x27], port=int(args[\x27port\x27]))\n",
         "        else:\n    "]
        else [])
      ++ ["        " ++ prog ++ "_on_files(**config[\x27args\x27], config_data=config)\n"]
    else []
  let entryChunks := ["\nif __name__ == \"__main__\":\n", "    try:\n",
    "        " ++ prog ++ "_main(**get_args())\n        sys.exit(0)\n",
    "    except Exception:\n        sys.exit(1)\n"]
  let progChunks := sofar ++ [coreChunk]
    ++ (if postgresql then ["    with conn.cursor() as cur:\n    "] else [])
    ++ ["    return foo # TODO: write your main logic here\n\n\n"]
    ++ serverChunks ++ [orchHeader] ++ orchBody ++ configMainChunks ++ entryChunks
  let testChunks := ["import " ++ prog ++ "\n\n",
    "def test_" ++ prog ++ "():\n    assert " ++ prog ++ "(\n"]
    ++ l3.map (fun a => "        " ++ a ++ "=None,\n")
    ++ ["    ) == \x27expected_result\x27\n"]
  let confChunks := if hc then
      ["args:\n"] ++ (l3.filter (fun a => a != "config")).map
        (fun a => "    " ++ a ++ ": default value for " ++ a ++ "\n")
    else []
  ⟨true, progChunks, testChunks, confChunks, dirs0 ++ [pathJoin (dirname output) "test"],
   Option.none, some l3, at1, ia1, csvE, jsonE, yamlE, hc, coreParams⟩

/-- Stage after the header imports: the CLI block (pystub.py:126-159) runs
when the (possibly `inputspec`-extended) argument list is truthy; afterwards
`'config' in args` (pystub.py:162) raises TypeError when `args` is `None`. -/
def pystubStage3 (args2 : Option (List String)) (at0 : List (String × Option String))
    (csvE jsonE yamlE fileinput postgresql server : Bool)
    (output : String) (dirs0 : List String) (header : List String) : PystubResult :=
  match args2 with
  | Option.none =>
    ⟨true, header, [], [], dirs0, some .typeErrorNone, Option.none, at0, [],
     csvE, jsonE, yamlE, false, []⟩
  | some l =>
    if l.isEmpty then
      pystubSuccess l at0 [] header csvE jsonE yamlE fileinput postgresql server output dirs0
    else
      let lo := cliLoop l.length 0 ⟨at0, [], []⟩ l
      let header2 := header
        ++ ["\ndef get_args():\n    parser = argparse.ArgumentParser()\n"] ++ lo.chunks
      match lo.err with
      | some e =>
        ⟨true, header2, [], [], dirs0, some e, some lo.newArgs, lo.st.argTypes,
         lo.st.inputArgs, csvE, jsonE, yamlE, false, []⟩
      | Option.none =>
        pystubSuccess lo.newArgs lo.st.argTypes lo.st.inputArgs
          (header2 ++ ["    return vars(parser.parse_args())\n\n\n"])
          csvE jsonE yamlE fileinput postgresql server output dirs0

/-- Stage writing the header imports (pystub.py:101-123); when the `fileinput`
flag is set, `args.append("inputspec+")` (pystub.py:109) raises AttributeError
if the argument list is `None`, after `import fileinput` has been written. -/
def pystubStage2 (args1 : Option (List String)) (at0 : List (String × Option String))
    (csvE jsonE yamlE fileinput postgresql logging server : Bool)
    (output : String) (dirs0 : List String) : PystubResult :=
  let headerA := ["#!/usr/bin/env python3\n\n"]
    ++ (if truthy args1 then ["import argparse\n"] else [])
    ++ (if csvE then ["import csv\n"] else [])
  if fileinput ∧ args1 = Option.none then
    ⟨true, headerA ++ ["import fileinput"], [], [], dirs0, some .attrErrorNone,
     Option.none, at0, [], csvE, jsonE, yamlE, false, []⟩
  else
    let args2 : Option (List String) :=
      if fileinput then some ((args1.getD []) ++ ["inputspec+"]) else args1
    let headerB := headerA
      ++ (if fileinput then ["import fileinput"] else [])
      ++ (if server then ["import flask\n"] else [])
      ++ (if jsonE then ["import json\n"] else [])
      ++ (if logging then ["import logging\n"] else [])
      ++ (if postgresql then ["import psycopg\n"] else [])
      ++ ["import sys\n"]
      ++ (if yamlE then ["import yaml\n"] else [])
      ++ (if logging then ["\nlogger = logging.getLogger(__name__)\n"] else [])
    pystubStage3 args2 at0 csvE jsonE yamlE fileinput postgresql server output dirs0 headerB

/-- Source `pystub` (pystub.py:79-261).  The parameters appear in the order
of the Python signature.  `args.extend(...)` (pystub.py:95) raises
AttributeError if the `server` flag is set and the argument list is `None`,
before any file or directory is created. -/
def pystub (args : Option (List String))
    (csv fileinput json postgresql yaml logging server : Bool)
    (output : String) : PystubResult :=
  let at0 := computeArgTypes (args.getD [])
  let csvE := csv || (dictValues at0).contains (some "csv")
  let jsonE := json || (dictValues at0).contains (some "json")
  let yamlE := yaml || (dictValues at0).contains (some "yaml")
  if server = true ∧ args = Option.none then
    ⟨false, [], [], [], [], some .attrErrorNone, Option.none, at0, [],
     csvE, jsonE, yamlE, false, []⟩
  else
    let args1 : Option (List String) :=
      if server then some ((args.getD []) ++ ["server:", "host", "port"]) else args
    let dirs0 := if dirname output == "" then [] else [dirname output]
    pystubStage2 args1 at0 csvE jsonE yamlE fileinput postgresql logging server output dirs0

/-- Boolean test of whether a string ends in one of the four modifier
characters. -/
def endsInMod (s : String) : Bool :=
  endswith s '+' || endswith s '*' || endswith s ':' || endswith s '%'

/-- Modelled from the words of claim C4 only, not from the source: the four
modifiers are "checked in priority order `+`, `*`, `:`, `%` on the name part
first and then on the type part", i.e. every modifier (including `:`) is
tested on the name part and then on the type part. -/
def claimedPickMod (nm : String) (ty : Option String) : Option PyMod :=
  if endswith nm '+' || tEnds ty '+' then some .plus
  else if endswith nm '*' || tEnds ty '*' then some .star
  else if endswith nm ':' || tEnds ty ':' then some .colon
  else if endswith nm '%' || tEnds ty '%' then some .percent
  else none

/-- Whether a modifier's check also consults the type part: true for `+`,
`*`, `%`, false for `:` (pystub.py:141-152). -/
def modOnType : PyMod → Bool
  | .colon => false
  | _ => true

/-- The amended reading of claim C4, phrased as a search through the
modifier priority list: the first modifier matching the end of the name
part, or (except for `:`) the end of the type part, wins. -/
def amendedPickMod (nm : String) (ty : Option String) : Option PyMod :=
  [PyMod.plus, PyMod.star, PyMod.colon, PyMod.percent].find?
    (fun m => endswith nm (modChar m) || (modOnType m && tEnds ty (modChar m)))

/-- Every chunk the header and CLI stages can write other than the
per-descriptor `parser.add_argument` lines (pystub.py:102-128, 159). -/
def headerFixedChunks : List String :=
  ["#!/usr/bin/env python3\n\n", "import argparse\n", "import csv\n",
   "import fileinput", "import flask\n", "import json\n", "import logging\n",
   "import psycopg\n", "import sys\n", "import yaml\n",
   "\nlogger = logging.getLogger(__name__)\n",
   "\ndef get_args():\n    parser = argparse.ArgumentParser()\n",
   "    return vars(parser.parse_args())\n\n\n"]

/-! ## Helper lemmas -/

theorem mk_data (s : String) : String.mk s.data = s := rfl

theorem list_head_ne (p r q : List Char) (i : Nat) (h1 : i < p.length)
    (h2 : p[i]? ≠ q[i]?) : p ++ r ≠ q := by
  intro he
  apply h2
  rw [← he, List.getElem?_append, if_pos h1]

theorem list_tail_ne (r p q : List Char) (i : Nat) (h1 : i < p.length)
    (h2 : p.reverse[i]? ≠ q.reverse[i]?) : r ++ p ≠ q := by
  intro he
  apply h2
  rw [← he, List.reverse_append, List.getElem?_append, if_pos (by simpa using h1)]

theorem mem_ite_nil {α : Type} {c : Prop} [Decidable c] {a : α} {l : List α}
    (h : a ∈ if c then l else []) : a ∈ l := by
  split at h
  · exact h
  · exact absurd h (List.not_mem_nil a)

theorem endsw_concat (c d : Char) (l : List Char) : endsw c (l ++ [d]) = (d == c) := by
  induction l with
  | nil => rfl
  | cons a rest ih =>
    rw [List.cons_append]
    simp only [endsw]
    have h : (rest ++ [d]).isEmpty = false := by simp [List.isEmpty_iff]
    rw [h]
    simpa using ih

theorem rmsfx_concat (c : Char) (l : List Char) : rmsfx c (l ++ [c]) = l := by
  induction l with
  | nil => simp [rmsfx]
  | cons a rest ih =>
    rw [List.cons_append]
    simp only [rmsfx]
    have h : (rest ++ [c]).isEmpty = false := by simp [List.isEmpty_iff]
    rw [h]
    simpa using ih

theorem rmsfx_of_not (c : Char) (l : List Char) (h : endsw c l = false) :
    rmsfx c l = l := by
  induction l with
  | nil => rfl
  | cons a rest ih =>
    simp only [endsw] at h
    simp only [rmsfx]
    rcases hr : rest.isEmpty with hfalse | htrue
    · rw [hr] at h
      simp only [hr, Bool.false_eq_true, if_false]
      rw [ih h]
    · have hrest : rest = [] := List.isEmpty_iff.mp hr
      subst hrest
      simp only [List.isEmpty_nil, if_true] at h ⊢
      simp [h]

theorem rmsfx_cases (c : Char) (l : List Char) :
    rmsfx c l = l ∨ ∃ p, l = p ++ [c] ∧ rmsfx c l = p := by
  induction l with
  | nil => exact Or.inl rfl
  | cons a rest ih =>
    rcases hr : rest.isEmpty with hfalse | htrue
    · rcases ih with h | ⟨p, hp, h2⟩
      · left
        simp only [rmsfx, hr, Bool.false_eq_true, if_false, h]
      · right
        refine ⟨a :: p, by rw [hp, List.cons_append], ?_⟩
        simp only [rmsfx, hr, Bool.false_eq_true, if_false, h2]
    · have hrest : rest = [] := List.isEmpty_iff.mp hr
      subst hrest
      by_cases hac : a = c
      · subst hac
        right
        exact ⟨[], rfl, by simp [rmsfx]⟩
      · left
        simp [rmsfx, hac]

theorem endswith_push (s : String) (c d : Char) :
    endswith (s.push c) d = (c == d) := by
  unfold endswith
  rw [String.data_push, endsw_concat]

theorem removesuffix_push_self (s : String) (c : Char) :
    removesuffix (s.push c) c = s := by
  unfold removesuffix
  rw [String.data_push, rmsfx_concat, mk_data]

theorem removesuffix_of_not (s : String) (c : Char) (h : endswith s c = false) :
    removesuffix s c = s := by
  unfold removesuffix
  rw [rmsfx_of_not c s.data h, mk_data]

theorem removesuffix_push_ne (s : String) (c d : Char) (h : (c == d) = false) :
    removesuffix (s.push c) d = s.push c :=
  removesuffix_of_not _ _ (by rw [endswith_push, h])

theorem removesuffix_cases (s : String) (c : Char) :
    removesuffix s c = s ∨ ∃ p : String, s = p.push c ∧ removesuffix s c = p := by
  rcases rmsfx_cases c s.data with h | ⟨p, hp, h2⟩
  · left
    unfold removesuffix
    rw [h, mk_data]
  · right
    refine ⟨⟨p⟩, String.ext ?_, ?_⟩
    · rw [String.data_push, hp]
    · unfold removesuffix
      rw [h2]

theorem push_ne_empty (s : String) (c : Char) : s.push c ≠ "" := by
  intro h
  have := congrArg String.data h
  rw [String.data_push] at this
  exact absurd this (by simp [String.data])

theorem endsInMod_parts (s : String) (h : endsInMod s = false) :
    endswith s '+' = false ∧ endswith s '*' = false ∧ endswith s ':' = false
      ∧ endswith s '%' = false := by
  unfold endsInMod at h
  simp only [Bool.or_eq_false_iff] at h
  exact ⟨h.1.1.1, h.1.1.2, h.1.2, h.2⟩

theorem without_flags_of_not (s : String) (h : endsInMod s = false) :
    without_flags s = s := by
  obtain ⟨h1, h2, h3, h4⟩ := endsInMod_parts s h
  unfold without_flags
  split
  · rfl
  · rw [removesuffix_of_not s '+' h1, removesuffix_of_not s '*' h2,
      removesuffix_of_not s ':' h3, removesuffix_of_not s '%' h4]

theorem without_flags_push (s : String) (c : Char)
    (hc : c = '+' ∨ c = '*' ∨ c = ':' ∨ c = '%') (hs : endsInMod s = false) :
    without_flags (s.push c) = s := by
  obtain ⟨h1, h2, h3, h4⟩ := endsInMod_parts s hs
  unfold without_flags
  rw [if_neg (push_ne_empty s c)]
  rcases hc with rfl | rfl | rfl | rfl
  · rw [removesuffix_push_self, removesuffix_of_not s '*' h2,
      removesuffix_of_not s ':' h3, removesuffix_of_not s '%' h4]
  · rw [removesuffix_push_ne s '*' '+' (by decide), removesuffix_push_self,
      removesuffix_of_not s ':' h3, removesuffix_of_not s '%' h4]
  · rw [removesuffix_push_ne s ':' '+' (by decide),
      removesuffix_push_ne s ':' '*' (by decide), removesuffix_push_self,
      removesuffix_of_not s '%' h4]
  · rw [removesuffix_push_ne s '%' '+' (by decide),
      removesuffix_push_ne s '%' '*' (by decide),
      removesuffix_push_ne s '%' ':' (by decide), removesuffix_push_self]

theorem loopStrip_config (t : String) (h : loopStrip t = "config") :
    without_flags (arg_name t) = "config" := by
  simp only [loopStrip] at h
  cases hm : pickMod (arg_name t) (arg_type t) with
  | none =>
    rw [hm] at h
    simp only at h
    rw [h]
    decide
  | some m =>
    rw [hm] at h
    simp only at h
    rcases removesuffix_cases (arg_name t) (modChar m) with hc | ⟨p, hp, h2⟩
    · rw [hc] at h
      rw [h]
      decide
    · rw [h2] at h
      subst h
      rw [hp]
      cases m <;> decide

theorem dictHas_insert_self (d : List (String × Option String)) (k : String)
    (v : Option String) : dictHas (dictInsert d k v) k = true := by
  unfold dictInsert
  split
  · next hhas =>
    unfold dictHas at hhas ⊢
    rw [List.any_map]
    obtain ⟨p, hp, hb⟩ := List.any_eq_true.mp hhas
    refine List.any_eq_true.mpr ⟨p, hp, ?_⟩
    simp [Function.comp, hb]
  · unfold dictHas
    rw [List.any_append]
    simp [dictHas]

theorem dictHas_insert_of (d : List (String × Option String)) (k : String)
    (v : Option String) (x : String) (h : dictHas d x = true) :
    dictHas (dictInsert d k v) x = true := by
  unfold dictInsert
  split
  · unfold dictHas at h ⊢
    rw [List.any_map]
    obtain ⟨p, hp, hb⟩ := List.any_eq_true.mp h
    refine List.any_eq_true.mpr ⟨p, hp, ?_⟩
    by_cases hpk : (p.1 == k) = true
    · have : p.1 = k := eq_of_beq hpk
      simp only [Function.comp, hpk, if_true]
      rw [← this]
      exact hb
    · simp only [Function.comp, Bool.not_eq_true] at hpk
      simp [Function.comp, hpk, hb]
  · unfold dictHas at h ⊢
    rw [List.any_append]
    simp [h]

theorem foldl_insert_has (args : List String) :
    ∀ (d : List (String × Option String)) (k : String),
      (dictHas d k = true ∨ ∃ t ∈ args, without_flags (arg_name t) = k) →
      dictHas (args.foldl
        (fun d arg =>
          dictInsert d (without_flags (arg_name arg)) (without_flagsO (arg_type arg))) d)
        k = true := by
  induction args with
  | nil =>
    intro d k h
    rcases h with h | ⟨t, ht, _⟩
    · exact h
    · exact absurd ht (List.not_mem_nil t)
  | cons a rest ih =>
    intro d k h
    rw [List.foldl_cons]
    rcases h with h | ⟨t, ht, hk⟩
    · exact ih _ k (Or.inl (dictHas_insert_of _ _ _ _ h))
    · rcases List.mem_cons.mp ht with hta | htr
      · subst hta
        exact ih _ k (Or.inl (hk ▸ dictHas_insert_self _ _ _))
      · exact ih _ k (Or.inr ⟨t, htr, hk⟩)

theorem computeArgTypes_has (args : List String) (t : String) (ht : t ∈ args) :
    dictHas (computeArgTypes args) (without_flags (arg_name t)) = true :=
  foldl_insert_has args [] _ (Or.inr ⟨t, ht, rfl⟩)

theorem mem_keys_of_dictHas (d : List (String × Option String)) (k : String)
    (h : dictHas d k = true) : k ∈ dictKeys d := by
  unfold dictHas at h
  obtain ⟨p, hp, hb⟩ := List.any_eq_true.mp h
  exact List.mem_map.mpr ⟨p, hp, eq_of_beq hb⟩

theorem dictHas_of_mem_keys (d : List (String × Option String)) (k : String)
    (h : k ∈ dictKeys d) : dictHas d k = true := by
  obtain ⟨p, hp, hpk⟩ := List.mem_map.mp h
  exact List.any_eq_true.mpr ⟨p, hp, by rw [hpk]; simp⟩

theorem cliStep_ok_inv (n iarg : Nat) (st : CliState) (t : String) (o : CliOut)
    (h : cliStep n iarg st t = .ok o) :
    o.newArg = loopStrip t
      ∧ (∀ k, dictHas st.argTypes k = true → dictHas o.st.argTypes k = true)
      ∧ o.chunk.data[4]? = some 'p' := by
  simp only [cliStep] at h
  cases hd : (arg_name t).data with
  | nil =>
    rw [hd] at h
    exact absurd h (by simp)
  | cons c cs =>
    rw [hd] at h
    cases hm : pickMod (arg_name t) (arg_type t) with
    | none =>
      rw [hm] at h
      simp only at h
      cases h
      refine ⟨by simp [loopStrip, hm], fun k hk => hk, ?_⟩
      simp only [String.data_append, List.append_assoc]
      rw [List.getElem?_append, if_pos (by decide)]
      decide
    | some m =>
      cases m <;> rw [hm] at h <;> simp only at h <;> cases h <;>
        refine ⟨by simp [loopStrip, hm, modChar], ?_, ?_⟩
      case cons.some.colon.refl.refine_1 => exact fun k hk => dictHas_insert_of _ _ _ _ hk
      case cons.some.plus.refl.refine_1 => exact fun k hk => hk
      case cons.some.star.refl.refine_1 => exact fun k hk => hk
      case cons.some.percent.refl.refine_1 => exact fun k hk => hk
      all_goals
        simp only [String.data_append, List.append_assoc]
        rw [List.getElem?_append, if_pos (by decide)]
        decide

theorem cliLoop_none_inv (n : Nat) (l : List String) :
    ∀ (i : Nat) (st : CliState), (cliLoop n i st l).err = Option.none →
      (cliLoop n i st l).newArgs = l.map loopStrip
        ∧ (∀ k, dictHas st.argTypes k = true →
            dictHas (cliLoop n i st l).st.argTypes k = true)
        ∧ (∀ ch ∈ (cliLoop n i st l).chunks, ch.data[4]? = some 'p') := by
  induction l with
  | nil =>
    intro i st _
    exact ⟨rfl, fun k hk => hk, fun ch hch => absurd hch (List.not_mem_nil ch)⟩
  | cons t rest ih =>
    intro i st he
    cases hs : cliStep n i st t with
    | error e =>
      rw [cliLoop, hs] at he
      exact absurd he (by simp)
    | ok o =>
      rw [cliLoop, hs] at he ⊢
      simp only at he ⊢
      obtain ⟨ha, hb, hc⟩ := ih (i + 1) o.st he
      obtain ⟨hn, hk, hch⟩ := cliStep_ok_inv n i st t o hs
      refine ⟨by rw [hn, ha, List.map_cons], fun k hks => hb k (hk k hks), ?_⟩
      intro ch hmem
      rcases List.mem_cons.mp hmem with rfl | hm2
      · exact hch
      · exact hc ch hm2

theorem cliLoop_err_of_empty (n : Nat) (l : List String) :
    ∀ (i : Nat) (st : CliState), (∃ t ∈ l, (arg_name t).data = []) →
      (cliLoop n i st l).err = some GenError.idxError := by
  induction l with
  | nil =>
    intro i st h
    obtain ⟨t, ht, _⟩ := h
    exact absurd ht (List.not_mem_nil t)
  | cons t rest ih =>
    intro i st h
    by_cases hd : (arg_name t).data = []
    · have hs : cliStep n i st t = .error .idxError := by
        simp only [cliStep]
        rw [hd]
      rw [cliLoop, hs]
    · -- the head succeeds, so the failing token is in the tail
      obtain ⟨u, hu, hud⟩ := h
      have hur : u ∈ rest := by
        rcases List.mem_cons.mp hu with rfl | h2
        · exact absurd hud hd
        · exact h2
      cases hs : cliStep n i st t with
      | error e =>
        -- impossible: the only error is raised on an empty name
        exfalso
        simp only [cliStep] at hs
        cases hdd : (arg_name t).data with
        | nil => exact hd hdd
        | cons c cs =>
          rw [hdd] at hs
          cases hm : pickMod (arg_name t) (arg_type t) <;> rw [hm] at hs
          · exact absurd hs (by simp)
          · next m => cases m <;> simp at hs
      | ok o =>
        rw [cliLoop, hs]
        simp only
        exact ih (i + 1) o.st ⟨u, hur, hud⟩

theorem contains_char_iff_mem (l : List Char) (a : Char) :
    l.contains a = true ↔ a ∈ l := by
  unfold List.contains
  exact List.elem_iff

theorem contains_char_eq_false (l : List Char) (a : Char) (h : a ∉ l) :
    l.contains a = false := by
  rw [← Bool.not_eq_true, contains_char_iff_mem]
  exact h

theorem sadd_mem (c' c : Char) (used : List Char) :
    c' ∈ sadd c used ↔ c' = c ∨ c' ∈ used := by
  unfold sadd
  split
  · next hc =>
    constructor
    · exact Or.inr
    · rintro (rfl | h)
      · exact (contains_char_iff_mem used c').mp hc
      · exact h
  · exact List.mem_cons

theorem string_mk_single_ne_empty (c : Char) : (⟨[c]⟩ : String) ≠ "" := by
  intro h
  have := congrArg String.data h
  exact absurd this (by simp [String.data])

theorem shortFor_rule (used : List Char) (c : Char) :
    (c ∉ used → shortFor used c = ⟨[c]⟩)
      ∧ (c ∈ used → c.toUpper ∉ used → shortFor used c = ⟨[c.toUpper]⟩)
      ∧ (shortFor used c = "" ↔ (c ∈ used ∧ c.toUpper ∈ used)) := by
  unfold shortFor
  refine ⟨?_, ?_, ?_⟩
  · intro h
    rw [contains_char_eq_false used c h]
    rfl
  · intro h hu
    rw [(contains_char_iff_mem used c).mpr h, contains_char_eq_false used c.toUpper hu]
    rfl
  · cases hc : used.contains c with
    | false =>
      simp only [Bool.not_false, if_true]
      constructor
      · intro h
        exact absurd h (string_mk_single_ne_empty c)
      · rintro ⟨h, -⟩
        rw [(contains_char_iff_mem used c).mpr h] at hc
        exact absurd hc (by simp)
    | true =>
      cases hu : used.contains c.toUpper with
      | false =>
        simp only [Bool.not_true, Bool.not_false, if_false, if_true]
        constructor
        · intro h
          exact absurd h (string_mk_single_ne_empty c.toUpper)
        · rintro ⟨-, h⟩
          rw [(contains_char_iff_mem used c.toUpper).mpr h] at hu
          exact absurd hu (by simp)
      | true =>
        simp only [Bool.not_true, if_false]
        constructor
        · intro _
          exact ⟨(contains_char_iff_mem used c).mp hc,
            (contains_char_iff_mem used c.toUpper).mp hu⟩
        · intro _
          rfl

theorem shortFor_three (used : List Char) (c : Char) (h1 : c ∉ used)
    (h2 : c.toUpper ∉ used) (h3 : c ≠ c.toUpper) :
    shortFor used c = ⟨[c]⟩
      ∧ shortFor (sadd c used) c = ⟨[c.toUpper]⟩
      ∧ shortFor (sadd c (sadd c used)) c = ⟨[c.toUpper]⟩ := by
  have hm1 : c ∈ sadd c used := (sadd_mem c c used).mpr (Or.inl rfl)
  have hm2 : c.toUpper ∉ sadd c used := by
    intro h
    rcases (sadd_mem c.toUpper c used).mp h with h | h
    · exact h3 h.symm
    · exact h2 h
  have hm3 : c ∈ sadd c (sadd c used) := (sadd_mem c c (sadd c used)).mpr (Or.inl rfl)
  have hm4 : c.toUpper ∉ sadd c (sadd c used) := by
    intro h
    rcases (sadd_mem c.toUpper c (sadd c used)).mp h with h | h
    · exact h3 h.symm
    · exact hm2 h
  exact ⟨(shortFor_rule used c).1 h1,
    (shortFor_rule (sadd c used) c).2.1 hm1 hm2,
    (shortFor_rule (sadd c (sadd c used)) c).2.1 hm3 hm4⟩

theorem cliStep_ok_short (n iarg : Nat) (st : CliState) (t : String) (o : CliOut)
    (h : cliStep n iarg st t = .ok o) :
    ∃ c cs, (arg_name t).data = c :: cs
      ∧ o.st.shortArgs = sadd c st.shortArgs
      ∧ ∃ d ac, (d = "" ∨ d = "--")
        ∧ o.chunk = "    parser.add_argument(\"" ++ d ++ o.newArg ++ "\""
            ++ (", \"-" ++ shortFor st.shortArgs c ++ "\"") ++ ac ++ ")\n" := by
  simp only [cliStep] at h
  cases hd : (arg_name t).data with
  | nil =>
    rw [hd] at h
    exact absurd h (by simp)
  | cons c cs =>
    rw [hd] at h
    refine ⟨c, cs, rfl, ?_⟩
    cases hm : pickMod (arg_name t) (arg_type t) with
    | none =>
      rw [hm] at h
      simp only at h
      cases h
      refine ⟨rfl, ?_⟩
      by_cases hif : (iarg == n - 1) = true
      · exact ⟨"", "", Or.inl rfl, by simp [shortFor, hif]⟩
      · exact ⟨"--", "", Or.inr rfl, by simp [shortFor, hif]⟩
    | some m =>
      cases m <;>
        (rw [hm] at h
         simp only at h
         cases h
         refine ⟨rfl, ?_⟩
         by_cases hif : (iarg == n - 1) = true)
      · exact ⟨"", modAction PyMod.plus, Or.inl rfl, by simp [shortFor, hif]⟩
      · exact ⟨"--", modAction PyMod.plus, Or.inr rfl, by simp [shortFor, hif]⟩
      · exact ⟨"", modAction PyMod.star, Or.inl rfl, by simp [shortFor, hif]⟩
      · exact ⟨"--", modAction PyMod.star, Or.inr rfl, by simp [shortFor, hif]⟩
      · exact ⟨"", modAction PyMod.colon, Or.inl rfl, by simp [shortFor, hif]⟩
      · exact ⟨"--", modAction PyMod.colon, Or.inr rfl, by simp [shortFor, hif]⟩
      · exact ⟨"", modAction PyMod.percent, Or.inl rfl, by simp [shortFor, hif]⟩
      · exact ⟨"--", modAction PyMod.percent, Or.inr rfl, by simp [shortFor, hif]⟩

theorem cliLoop_chunks_args (n : Nat) (l : List String) :
    ∀ (i : Nat) (st : CliState), (cliLoop n i st l).err = Option.none →
      List.Forall₂ argLineRel (cliLoop n i st l).newArgs (cliLoop n i st l).chunks := by
  induction l with
  | nil =>
    intro i st _
    exact List.Forall₂.nil
  | cons t rest ih =>
    intro i st he
    cases hs : cliStep n i st t with
    | error e =>
      rw [cliLoop, hs] at he
      exact absurd he (by simp)
    | ok o =>
      rw [cliLoop, hs] at he ⊢
      simp only at he ⊢
      obtain ⟨c, cs, hdata, hsa, d, ac, hd, hchunk⟩ := cliStep_ok_short n i st t o hs
      exact List.Forall₂.cons ⟨d, _, ac, hd, hchunk⟩ (ih (i + 1) o.st he)

theorem cliLoop_chunks_alloc (n : Nat) (l : List String) :
    ∀ (i : Nat) (st : CliState), (cliLoop n i st l).err = Option.none →
      List.Forall₂
        (fun ex ch => ∃ d a ac, (d = "" ∨ d = "--")
          ∧ ch = "    parser.add_argument(\"" ++ d ++ a ++ "\""
              ++ (", \"-" ++ ex ++ "\"") ++ ac ++ ")\n")
        (shortAllocTokens st.shortArgs l) (cliLoop n i st l).chunks := by
  induction l with
  | nil =>
    intro i st _
    exact List.Forall₂.nil
  | cons t rest ih =>
    intro i st he
    cases hs : cliStep n i st t with
    | error e =>
      rw [cliLoop, hs] at he
      exact absurd he (by simp)
    | ok o =>
      rw [cliLoop, hs] at he ⊢
      simp only at he ⊢
      obtain ⟨c, cs, hdata, hsa, d, ac, hd, hchunk⟩ := cliStep_ok_short n i st t o hs
      simp only [shortAllocTokens, hdata, List.headD_cons]
      refine List.Forall₂.cons ⟨d, o.newArg, ac, hd, hchunk⟩ ?_
      rw [← hsa]
      exact ih (i + 1) o.st he

theorem cliLoop_shortArgs (n : Nat) (l : List String) :
    ∀ (i : Nat) (st : CliState), (cliLoop n i st l).err = Option.none →
      ∀ c', c' ∈ (cliLoop n i st l).st.shortArgs
        ↔ c' ∈ st.shortArgs ∨ ∃ t ∈ l, (arg_name t).data.head? = some c' := by
  induction l with
  | nil =>
    intro i st _ c'
    simp [cliLoop]
  | cons t rest ih =>
    intro i st he c'
    cases hs : cliStep n i st t with
    | error e =>
      rw [cliLoop, hs] at he
      exact absurd he (by simp)
    | ok o =>
      rw [cliLoop, hs] at he ⊢
      simp only at he ⊢
      obtain ⟨c, cs, hdata, hsa, -⟩ := cliStep_ok_short n i st t o hs
      rw [ih (i + 1) o.st he c', hsa, sadd_mem]
      have hh : (arg_name t).data.head? = some c := by rw [hdata]; rfl
      constructor
      · rintro ((rfl | h) | h)
        · exact Or.inr ⟨t, List.mem_cons_self t rest, by rw [hh]⟩
        · exact Or.inl h
        · obtain ⟨u, hu, hcu⟩ := h
          exact Or.inr ⟨u, List.mem_cons_of_mem t hu, hcu⟩
      · rintro (h | ⟨u, hu, hcu⟩)
        · exact Or.inl (Or.inr h)
        · rcases List.mem_cons.mp hu with rfl | hur
          · rw [hh] at hcu
            exact Or.inl (Or.inl (Option.some_inj.mp hcu).symm)
          · exact Or.inr ⟨u, hur, hcu⟩

theorem mem_fixed_of_ite {c : Prop} [Decidable c] {x s : String}
    (h : x ∈ if c then [s] else []) : x = s := by
  have := mem_ite_nil h
  simpa using this

theorem ite_singleton_subset {c : Prop} [Decidable c] {s : String} {L : List String}
    (h : s ∈ L) : (if c then [s] else []) ⊆ L := by
  split
  · intro x hx
    rw [List.mem_singleton.mp hx]
    exact h
  · intro x hx
    exact absurd hx (List.not_mem_nil x)

theorem singleton_subset {s : String} {L : List String} (h : s ∈ L) : [s] ⊆ L := by
  intro x hx
  rw [List.mem_singleton.mp hx]
  exact h

theorem stage3_shape (args2 : Option (List String)) (at0 : List (String × Option String))
    (csvE jsonE yamlE fi pg srv : Bool) (out : String) (dirs0 header : List String)
    (hinv : ∀ t ∈ args2.getD [], loopStrip t = "config" → dictHas at0 "config" = true)
    (hhead : ∀ ch ∈ header, ch ∈ headerFixedChunks)
    (h : (pystubStage3 args2 at0 csvE jsonE yamlE fi pg srv out dirs0 header).error
      = Option.none) :
    ∃ l3 at1 ia1 sofar,
      pystubStage3 args2 at0 csvE jsonE yamlE fi pg srv out dirs0 header =
        pystubSuccess l3 at1 ia1 sofar csvE jsonE yamlE fi pg srv out dirs0
      ∧ (∀ a ∈ l3, a = "config" → dictHas at1 a = true)
      ∧ (∀ ch ∈ sofar, ch ∈ headerFixedChunks ∨ ch.data[4]? = some 'p')
      ∧ ∃ pre cli post, sofar = pre ++ cli ++ post
          ∧ List.Forall₂ argLineRel l3 cli := by
  cases args2 with
  | none =>
    simp only [pystubStage3] at h
    exact absurd h (by simp)
  | some l =>
    simp only [pystubStage3] at h ⊢
    by_cases hl : l.isEmpty
    · rw [if_pos hl] at h ⊢
      refine ⟨l, at0, [], header, rfl, ?_, fun ch hch => Or.inl (hhead ch hch),
        header, [], [], by simp, ?_⟩
      · intro a ha
        rw [List.isEmpty_iff.mp hl] at ha
        exact absurd ha (List.not_mem_nil a)
      · rw [List.isEmpty_iff.mp hl]
        exact List.Forall₂.nil
    · rw [if_neg hl] at h ⊢
      cases hlo : (cliLoop l.length 0 ⟨at0, [], []⟩ l).err with
      | some e =>
        simp only [hlo] at h
        exact absurd h (by simp)
      | none =>
        simp only [hlo] at h ⊢
        obtain ⟨ha, hb, hc⟩ := cliLoop_none_inv l.length l 0 ⟨at0, [], []⟩ hlo
        refine ⟨_, _, _, _, rfl, ?_, ?_, ?_⟩
        · intro a hmem hconf
          subst hconf
          rw [ha] at hmem
          obtain ⟨t, ht, hts⟩ := List.mem_map.mp hmem
          exact hb "config" (hinv t ht hts)
        · intro ch hch
          simp only [List.mem_append] at hch
          rcases hch with ((hch | hch) | hch) | hch
          · exact Or.inl (hhead ch hch)
          · exact Or.inl (by rw [List.mem_singleton.mp hch]; decide)
          · exact Or.inr (hc ch hch)
          · exact Or.inl (by rw [List.mem_singleton.mp hch]; decide)
        · refine ⟨header ++ ["\ndef get_args():\n    parser = argparse.ArgumentParser()\n"],
            (cliLoop l.length 0 ⟨at0, [], []⟩ l).chunks,
            ["    return vars(parser.parse_args())\n\n\n"],
            by simp [List.append_assoc], ?_⟩
          exact cliLoop_chunks_args l.length l 0 ⟨at0, [], []⟩ hlo

theorem stage2_shape (args1 : Option (List String)) (at0 : List (String × Option String))
    (csvE jsonE yamlE fi pg lg srv : Bool) (out : String) (dirs0 : List String)
    (hinv : ∀ t ∈ args1.getD [], loopStrip t = "config" → dictHas at0 "config" = true)
    (h : (pystubStage2 args1 at0 csvE jsonE yamlE fi pg lg srv out dirs0).error
      = Option.none) :
    ∃ l3 at1 ia1 sofar,
      pystubStage2 args1 at0 csvE jsonE yamlE fi pg lg srv out dirs0 =
        pystubSuccess l3 at1 ia1 sofar csvE jsonE yamlE fi pg srv out dirs0
      ∧ (∀ a ∈ l3, a = "config" → dictHas at1 a = true)
      ∧ (∀ ch ∈ sofar, ch ∈ headerFixedChunks ∨ ch.data[4]? = some 'p')
      ∧ ∃ pre cli post, sofar = pre ++ cli ++ post
          ∧ List.Forall₂ argLineRel l3 cli := by
  simp only [pystubStage2] at h ⊢
  by_cases h0 : fi = true ∧ args1 = Option.none
  · rw [if_pos h0] at h
    exact absurd h (by simp)
  · rw [if_neg h0] at h ⊢
    apply stage3_shape
    · intro t ht hts
      by_cases hfi : fi = true
      · simp only [hfi, if_true] at ht
        simp only [Option.getD_some] at ht
        rcases List.mem_append.mp ht with htl | htr
        · exact hinv t htl hts
        · rw [List.mem_singleton.mp htr] at hts
          exact absurd hts (by decide)
      · simp only [hfi] at ht
        simp only [Bool.false_eq_true, if_false] at ht
        exact hinv t ht hts
    · have hsub : (["#!/usr/bin/env python3\n\n"]
          ++ (if truthy args1 = true then ["import argparse\n"] else [])
          ++ (if csvE = true then ["import csv\n"] else [])
          ++ (if fi = true then ["import fileinput"] else [])
          ++ (if srv = true then ["import flask\n"] else [])
          ++ (if jsonE = true then ["import json\n"] else [])
          ++ (if lg = true then ["import logging\n"] else [])
          ++ (if pg = true then ["import psycopg\n"] else [])
          ++ ["import sys\n"]
          ++ (if yamlE = true then ["import yaml\n"] else [])
          ++ (if lg = true then ["\nlogger = logging.getLogger(__name__)\n"] else []))
          ⊆ headerFixedChunks := by
        repeat
          first
            | exact singleton_subset (by decide)
            | exact ite_singleton_subset (by decide)
            | refine List.append_subset.mpr ⟨?_, ?_⟩
      exact fun ch hch => hsub hch
    · exact h

theorem pystub_shape (args : Option (List String)) (csv fi json pg yaml lg srv : Bool)
    (out : String)
    (h : (pystub args csv fi json pg yaml lg srv out).error = Option.none) :
    ∃ l3 at1 ia1 sofar dirs0,
      pystub args csv fi json pg yaml lg srv out =
        pystubSuccess l3 at1 ia1 sofar
          (csv || (dictValues (computeArgTypes (args.getD []))).contains (some "csv"))
          (json || (dictValues (computeArgTypes (args.getD []))).contains (some "json"))
          (yaml || (dictValues (computeArgTypes (args.getD []))).contains (some "yaml"))
          fi pg srv out dirs0
      ∧ (∀ a ∈ l3, a = "config" → dictHas at1 a = true)
      ∧ (∀ ch ∈ sofar, ch ∈ headerFixedChunks ∨ ch.data[4]? = some 'p')
      ∧ ∃ pre cli post, sofar = pre ++ cli ++ post
          ∧ List.Forall₂ argLineRel l3 cli := by
  rw [pystub] at h ⊢
  by_cases h0 : srv = true ∧ args = Option.none
  · rw [if_pos h0] at h
    exact absurd h (by simp)
  · rw [if_neg h0] at h ⊢
    have horig : ∀ t ∈ args.getD [], loopStrip t = "config" →
        dictHas (computeArgTypes (args.getD [])) "config" = true := by
      intro t ht hts
      have := computeArgTypes_has (args.getD []) t ht
      rw [loopStrip_config t hts] at this
      exact this
    obtain ⟨l3, at1, ia1, sofar, heq, hconf, hsofar, hcli⟩ := stage2_shape _ _ _ _ _ _ _ _ _ _ _
      (by
        intro t ht hts
        by_cases hs : srv = true
        · simp only [hs, if_true, Option.getD_some] at ht
          rcases List.mem_append.mp ht with htl | htr
          · exact horig t htl hts
          · simp only [List.mem_cons, List.not_mem_nil, or_false] at htr
            rcases htr with rfl | rfl | rfl <;> exact absurd hts (by decide)
        · simp only [hs, Bool.false_eq_true, if_false] at ht
          exact horig t ht hts)
      h
    exact ⟨l3, at1, ia1, sofar, _, heq, hconf, hsofar, hcli⟩

theorem str_head_ne (p r q : String) (i : Nat) (h1 : i < p.data.length)
    (h2 : p.data[i]? ≠ q.data[i]?) : p ++ r ≠ q := by
  intro he
  apply list_head_ne p.data r.data q.data i h1 h2
  rw [← String.data_append, he]

theorem str_tail_ne (r p q : String) (i : Nat) (h1 : i < p.data.length)
    (h2 : p.data.reverse[i]? ≠ q.data.reverse[i]?) : r ++ p ≠ q := by
  intro he
  apply list_tail_ne r.data p.data q.data i h1 h2
  rw [← String.data_append, he]

theorem stage3_effs (args2 : Option (List String)) (at0 : List (String × Option String))
    (csvE jsonE yamlE fi pg srv : Bool) (out : String) (dirs0 header : List String) :
    (pystubStage3 args2 at0 csvE jsonE yamlE fi pg srv out dirs0 header).csvEff = csvE
      ∧ (pystubStage3 args2 at0 csvE jsonE yamlE fi pg srv out dirs0 header).jsonEff = jsonE
      ∧ (pystubStage3 args2 at0 csvE jsonE yamlE fi pg srv out dirs0 header).yamlEff = yamlE := by
  cases args2 with
  | none => exact ⟨rfl, rfl, rfl⟩
  | some l =>
    simp only [pystubStage3]
    by_cases hl : l.isEmpty
    · rw [if_pos hl]
      exact ⟨rfl, rfl, rfl⟩
    · rw [if_neg hl]
      cases hlo : (cliLoop l.length 0 ⟨at0, [], []⟩ l).err with
      | some e =>
        simp only [hlo]
        exact ⟨by trivial, by trivial, by trivial⟩
      | none =>
        simp only [hlo]
        exact ⟨by trivial, by trivial, by trivial⟩

theorem stage2_effs (args1 : Option (List String)) (at0 : List (String × Option String))
    (csvE jsonE yamlE fi pg lg srv : Bool) (out : String) (dirs0 : List String) :
    (pystubStage2 args1 at0 csvE jsonE yamlE fi pg lg srv out dirs0).csvEff = csvE
      ∧ (pystubStage2 args1 at0 csvE jsonE yamlE fi pg lg srv out dirs0).jsonEff = jsonE
      ∧ (pystubStage2 args1 at0 csvE jsonE yamlE fi pg lg srv out dirs0).yamlEff = yamlE := by
  simp only [pystubStage2]
  by_cases h0 : fi = true ∧ args1 = Option.none
  · rw [if_pos h0]
    exact ⟨rfl, rfl, rfl⟩
  · rw [if_neg h0]
    exact stage3_effs _ _ _ _ _ _ _ _ _ _ _

theorem pystub_effs (args : Option (List String)) (csv fi json pg yaml lg srv : Bool)
    (out : String) :
    (pystub args csv fi json pg yaml lg srv out).csvEff
        = (csv || (dictValues (computeArgTypes (args.getD []))).contains (some "csv"))
      ∧ (pystub args csv fi json pg yaml lg srv out).jsonEff
        = (json || (dictValues (computeArgTypes (args.getD []))).contains (some "json"))
      ∧ (pystub args csv fi json pg yaml lg srv out).yamlEff
        = (yaml || (dictValues (computeArgTypes (args.getD []))).contains (some "yaml")) := by
  simp only [pystub]
  by_cases h0 : srv = true ∧ args = Option.none
  · rw [if_pos h0]
    exact ⟨rfl, rfl, rfl⟩
  · rw [if_neg h0]
    exact stage2_effs _ _ _ _ _ _ _ _ _ _ _

theorem dictHas_append_single (d : List (String × Option String)) (k x : String)
    (v : Option String) :
    dictHas (d ++ [(k, v)]) x = (dictHas d x || (k == x)) := by
  unfold dictHas
  rw [List.any_append]
  simp [List.any]

theorem foldl_insert_eq (args : List String) :
    ∀ d, (∀ t ∈ args, dictHas d (without_flags (arg_name t)) = false) →
      ((args.map fun t => without_flags (arg_name t)).Nodup) →
      args.foldl
        (fun d arg =>
          dictInsert d (without_flags (arg_name arg)) (without_flagsO (arg_type arg))) d
        = d ++ args.map
            (fun t => (without_flags (arg_name t), without_flagsO (arg_type t))) := by
  induction args with
  | nil =>
    intro d _ _
    simp
  | cons a rest ih =>
    intro d hfresh hnodup
    rw [List.foldl_cons]
    have hins : dictInsert d (without_flags (arg_name a)) (without_flagsO (arg_type a))
        = d ++ [(without_flags (arg_name a), without_flagsO (arg_type a))] := by
      unfold dictInsert
      rw [hfresh a (List.mem_cons_self a rest)]
      simp
    rw [hins]
    rw [List.map_cons, List.nodup_cons] at hnodup
    have hih := ih (d ++ [(without_flags (arg_name a), without_flagsO (arg_type a))])
      (by
        intro t ht
        rw [dictHas_append_single]
        have h1 : dictHas d (without_flags (arg_name t)) = false :=
          hfresh t (List.mem_cons_of_mem a ht)
        have h2 : without_flags (arg_name a) ≠ without_flags (arg_name t) := by
          intro hxy
          exact hnodup.1 (hxy ▸ List.mem_map.mpr ⟨t, ht, rfl⟩)
        rw [h1]
        simp [h2])
      hnodup.2
    rw [hih]
    simp [List.append_assoc]

theorem computeArgTypes_values (args : List String)
    (h : (args.map fun t => without_flags (arg_name t)).Nodup) :
    dictValues (computeArgTypes args)
      = args.map fun t => without_flagsO (arg_type t) := by
  unfold computeArgTypes
  rw [foldl_insert_eq args [] (by intro t _; rfl) h]
  unfold dictValues
  rw [List.nil_append, List.map_map]
  rfl

theorem values_contains_iff (args : List String) (τ : String)
    (h : (args.map fun t => without_flags (arg_name t)).Nodup) :
    ((dictValues (computeArgTypes args)).contains (some τ) = true
      ↔ ∃ t ∈ args, without_flagsO (arg_type t) = some τ) := by
  rw [computeArgTypes_values args h]
  unfold List.contains
  rw [List.elem_iff, List.mem_map]

theorem success_coreParams (l3 : List String) (at1 : List (String × Option String))
    (ia1 sofar : List String) (csvE jsonE yamlE fi pg srv : Bool) (out : String)
    (dirs0 : List String) :
    (pystubSuccess l3 at1 ia1 sofar csvE jsonE yamlE fi pg srv out dirs0).coreParams
      = (dictKeys at1).filter (fun k => k != "config" && k != "output")
        ++ l3.filter (fun a => !(dictHas at1 a) && a != "output") := rfl

theorem success_finalArgs (l3 : List String) (at1 : List (String × Option String))
    (ia1 sofar : List String) (csvE jsonE yamlE fi pg srv : Bool) (out : String)
    (dirs0 : List String) :
    (pystubSuccess l3 at1 ia1 sofar csvE jsonE yamlE fi pg srv out dirs0).finalArgs
      = some l3 := rfl

theorem success_hasConfig (l3 : List String) (at1 : List (String × Option String))
    (ia1 sofar : List String) (csvE jsonE yamlE fi pg srv : Bool) (out : String)
    (dirs0 : List String) :
    (pystubSuccess l3 at1 ia1 sofar csvE jsonE yamlE fi pg srv out dirs0).hasConfig
      = (l3.contains "config" && yamlE) := rfl

theorem success_yamlEff (l3 : List String) (at1 : List (String × Option String))
    (ia1 sofar : List String) (csvE jsonE yamlE fi pg srv : Bool) (out : String)
    (dirs0 : List String) :
    (pystubSuccess l3 at1 ia1 sofar csvE jsonE yamlE fi pg srv out dirs0).yamlEff
      = yamlE := rfl

theorem success_testChunks (l3 : List String) (at1 : List (String × Option String))
    (ia1 sofar : List String) (csvE jsonE yamlE fi pg srv : Bool) (out : String)
    (dirs0 : List String) :
    (pystubSuccess l3 at1 ia1 sofar csvE jsonE yamlE fi pg srv out dirs0).testChunks
      = ["import " ++ progName out ++ "\n\n",
         "def test_" ++ progName out ++ "():\n    assert " ++ progName out ++ "(\n"]
        ++ l3.map (fun a => "        " ++ a ++ "=None,\n")
        ++ ["    ) == \x27expected_result\x27\n"] := rfl

theorem success_confChunks (l3 : List String) (at1 : List (String × Option String))
    (ia1 sofar : List String) (csvE jsonE yamlE fi pg srv : Bool) (out : String)
    (dirs0 : List String) :
    (pystubSuccess l3 at1 ia1 sofar csvE jsonE yamlE fi pg srv out dirs0).confChunks
      = if (l3.contains "config" && yamlE) = true then
          ["args:\n"] ++ (l3.filter (fun a => a != "config")).map
            (fun a => "    " ++ a ++ ": default value for " ++ a ++ "\n")
        else [] := rfl

theorem success_progChunks_split (l3 : List String) (at1 : List (String × Option String))
    (ia1 sofar : List String) (csvE jsonE yamlE fi pg srv : Bool) (out : String)
    (dirs0 : List String) :
    (pystubSuccess l3 at1 ia1 sofar csvE jsonE yamlE fi pg srv out dirs0).progChunks
      = sofar
        ++ (pystubSuccess l3 at1 ia1 [] csvE jsonE yamlE fi pg srv out dirs0).progChunks := by
  simp only [pystubSuccess]
  simp [List.append_assoc]

theorem success_core_mem (l3 : List String) (at1 : List (String × Option String))
    (ia1 sofar : List String) (csvE jsonE yamlE fi pg srv : Bool) (out : String)
    (dirs0 : List String) (a : String) (ha : a ∈ l3) (hc : a ≠ "config")
    (ho : a ≠ "output") :
    a ∈ (pystubSuccess l3 at1 ia1 sofar csvE jsonE yamlE fi pg srv out dirs0).coreParams := by
  rw [success_coreParams]
  cases hk : dictHas at1 a with
  | true =>
    apply List.mem_append_left
    refine List.mem_filter.mpr ⟨mem_keys_of_dictHas at1 a hk, ?_⟩
    simp [hc, ho]
  | false =>
    apply List.mem_append_right
    refine List.mem_filter.mpr ⟨ha, ?_⟩
    simp [hk, ho]

theorem success_c8 (l3 : List String) (at1 : List (String × Option String))
    (ia1 sofar : List String) (csvE jsonE yamlE fi pg srv : Bool) (out : String)
    (dirs0 : List String) (hconf : ∀ a ∈ l3, a = "config" → dictHas at1 a = true) :
    "output" ∉ (pystubSuccess l3 at1 ia1 sofar csvE jsonE yamlE fi pg srv out dirs0).coreParams
      ∧ "config" ∉ (pystubSuccess l3 at1 ia1 sofar csvE jsonE yamlE fi pg srv out
          dirs0).coreParams := by
  rw [success_coreParams]
  constructor
  · intro hmem
    rcases List.mem_append.mp hmem with hm | hm
    · have := (List.mem_filter.mp hm).2
      exact absurd this (by decide)
    · have := (List.mem_filter.mp hm).2
      simp at this
  · intro hmem
    rcases List.mem_append.mp hmem with hm | hm
    · have := (List.mem_filter.mp hm).2
      exact absurd this (by decide)
    · obtain ⟨hc3, hpred⟩ := List.mem_filter.mp hm
      have hd := hconf "config" hc3 rfl
      simp [hd] at hpred

/-! ## Claim C1 -/

/-- C1 counterexample: with descriptors `["data", "output"]` the test stub
binds `output=None`, yet `output` is not a parameter of the generated
core-logic function, so the test stub's call is not consistent with the
core-logic signature. -/
theorem c1_counterexample :
    ("        output=None,\n"
      ∈ (pystub (some ["data", "output"]) false false false false false false false
          "prog").testChunks)
    ∧ "output" ∉ (pystub (some ["data", "output"]) false false false false false false false
        "prog").coreParams
    ∧ "output" ∈ ((pystub (some ["data", "output"]) false false false false false false false
        "prog").finalArgs.getD []) := by decide

/-- C1 amended: on every successful run the CLI block enumerates the
finalized argument list in order (one `parser.add_argument` line per
argument, appearing as a contiguous ordered sublist of the program file),
the test stub\x27s call binds exactly the finalized arguments in order (each
as `name=None`), and when the config wrapper is active the config template
enumerates them in order minus `config`; every finalized argument other
than `config` and `output` is a parameter of the generated core-logic
function, while `config` and `output` are never core-logic parameters,
though the test stub still binds them. -/
theorem c1_amended (args : Option (List String)) (csv fi json pg yaml lg srv : Bool)
    (out : String)
    (h : (pystub args csv fi json pg yaml lg srv out).error = Option.none) :
    (∃ pre cli post,
        (pystub args csv fi json pg yaml lg srv out).progChunks = pre ++ cli ++ post
        ∧ List.Forall₂ argLineRel
            ((pystub args csv fi json pg yaml lg srv out).finalArgs.getD []) cli)
    ∧ (pystub args csv fi json pg yaml lg srv out).testChunks
        = ["import " ++ progName out ++ "\n\n",
           "def test_" ++ progName out ++ "():\n    assert " ++ progName out ++ "(\n"]
          ++ ((pystub args csv fi json pg yaml lg srv out).finalArgs.getD []).map
              (fun a => "        " ++ a ++ "=None,\n")
          ++ ["    ) == \x27expected_result\x27\n"]
    ∧ ((pystub args csv fi json pg yaml lg srv out).hasConfig = true →
        (pystub args csv fi json pg yaml lg srv out).confChunks
          = ["args:\n"]
            ++ (((pystub args csv fi json pg yaml lg srv out).finalArgs.getD []).filter
                (fun a => a != "config")).map
                (fun a => "    " ++ a ++ ": default value for " ++ a ++ "\n"))
    ∧ (∀ a ∈ (pystub args csv fi json pg yaml lg srv out).finalArgs.getD [],
        a ≠ "config" → a ≠ "output" →
        a ∈ (pystub args csv fi json pg yaml lg srv out).coreParams)
    ∧ "output" ∉ (pystub args csv fi json pg yaml lg srv out).coreParams
    ∧ "config" ∉ (pystub args csv fi json pg yaml lg srv out).coreParams := by
  obtain ⟨l3, at1, ia1, sofar, dirs0, heq, hconf, hsofar, hcli⟩ :=
    pystub_shape args csv fi json pg yaml lg srv out h
  rw [heq]
  simp only [success_finalArgs, Option.getD_some]
  obtain ⟨ho, hc⟩ := success_c8 l3 at1 ia1 sofar _ _ _ fi pg srv out dirs0 hconf
  refine ⟨?_, ?_, ?_, ?_, ho, hc⟩
  · obtain ⟨pre0, cli0, post0, hsf, hfa⟩ := hcli
    refine ⟨pre0, cli0,
      post0 ++ (pystubSuccess l3 at1 ia1 []
        (csv || (dictValues (computeArgTypes (args.getD []))).contains (some "csv"))
        (json || (dictValues (computeArgTypes (args.getD []))).contains (some "json"))
        (yaml || (dictValues (computeArgTypes (args.getD []))).contains (some "yaml"))
        fi pg srv out dirs0).progChunks,
      ?_, hfa⟩
    rw [success_progChunks_split, hsf]
    simp [List.append_assoc]
  · exact success_testChunks l3 at1 ia1 sofar _ _ _ fi pg srv out dirs0
  · intro hhc
    rw [success_hasConfig] at hhc
    rw [success_confChunks, if_pos hhc]
  · intro a ha hcne hone
    exact success_core_mem l3 at1 ia1 sofar _ _ _ fi pg srv out dirs0 a ha hcne hone

/-- C1 amended witness at a concrete input. -/
theorem c1_amended_witness :
    (∃ pre cli post,
        (pystub (some ["data"]) false false false false false false false
            "prog").progChunks = pre ++ cli ++ post
        ∧ List.Forall₂ argLineRel
            ((pystub (some ["data"]) false false false false false false false
                "prog").finalArgs.getD []) cli)
    ∧ (pystub (some ["data"]) false false false false false false false "prog").testChunks
        = ["import " ++ progName "prog" ++ "\n\n",
           "def test_" ++ progName "prog" ++ "():\n    assert " ++ progName "prog" ++ "(\n"]
          ++ ((pystub (some ["data"]) false false false false false false false
              "prog").finalArgs.getD []).map
              (fun a => "        " ++ a ++ "=None,\n")
          ++ ["    ) == \x27expected_result\x27\n"]
    ∧ ((pystub (some ["data"]) false false false false false false false
          "prog").hasConfig = true →
        (pystub (some ["data"]) false false false false false false false "prog").confChunks
          = ["args:\n"]
            ++ (((pystub (some ["data"]) false false false false false false false
                "prog").finalArgs.getD []).filter
                (fun a => a != "config")).map
                (fun a => "    " ++ a ++ ": default value for " ++ a ++ "\n"))
    ∧ (∀ a ∈ (pystub (some ["data"]) false false false false false false false
          "prog").finalArgs.getD [],
        a ≠ "config" → a ≠ "output" →
        a ∈ (pystub (some ["data"]) false false false false false false false
            "prog").coreParams)
    ∧ "output" ∉ (pystub (some ["data"]) false false false false false false false
        "prog").coreParams
    ∧ "config" ∉ (pystub (some ["data"]) false false false false false false false
        "prog").coreParams :=
  c1_amended (some ["data"]) false false false false false false false "prog" (by decide)

/-! ## Claim C2 -/

/-- C2 counterexample: with the single empty descriptor token, generation
fails with an IndexError, but the output program file has already been
created and holds a partial artifact (the header and the beginning of the
CLI block), contradicting the claim that the failure happens before any
output file has been written or created. -/
theorem c2_counterexample :
    (pystub (some [""]) false false false false false false false "prog").error
        = some GenError.idxError
    ∧ (pystub (some [""]) false false false false false false false "prog").progCreated = true
    ∧ (pystub (some [""]) false false false false false false false "prog").progChunks
        ≠ [] := by decide

theorem stage3_c2 (l2 : List String) (at0 : List (String × Option String))
    (csvE jsonE yamlE fi pg srv : Bool) (out : String) (dirs0 header : List String)
    (h : ∃ t ∈ l2, (arg_name t).data = []) :
    (pystubStage3 (some l2) at0 csvE jsonE yamlE fi pg srv out dirs0 header).error
        = some GenError.idxError
      ∧ (pystubStage3 (some l2) at0 csvE jsonE yamlE fi pg srv out dirs0
          header).progCreated = true
      ∧ (pystubStage3 (some l2) at0 csvE jsonE yamlE fi pg srv out dirs0 header).progChunks
        ≠ [] := by
  simp only [pystubStage3]
  have hne : ¬ l2.isEmpty = true := by
    obtain ⟨t, ht, _⟩ := h
    intro hi
    rw [List.isEmpty_iff.mp hi] at ht
    exact List.not_mem_nil t ht
  rw [if_neg hne]
  have hlo := cliLoop_err_of_empty l2.length l2 0 ⟨at0, [], []⟩ h
  simp only [hlo]
  refine ⟨by trivial, by trivial, by simp⟩

theorem stage2_c2 (l1 : List String) (at0 : List (String × Option String))
    (csvE jsonE yamlE fi pg lg srv : Bool) (out : String) (dirs0 : List String)
    (h : "" ∈ l1) :
    (pystubStage2 (some l1) at0 csvE jsonE yamlE fi pg lg srv out dirs0).error
        = some GenError.idxError
      ∧ (pystubStage2 (some l1) at0 csvE jsonE yamlE fi pg lg srv out dirs0).progCreated
        = true
      ∧ (pystubStage2 (some l1) at0 csvE jsonE yamlE fi pg lg srv out dirs0).progChunks
        ≠ [] := by
  simp only [pystubStage2]
  rw [if_neg (by simp)]
  by_cases hfi : fi = true
  · simp only [hfi, if_true, Option.getD_some]
    exact stage3_c2 _ _ _ _ _ _ _ _ _ _ _ ⟨"", List.mem_append_left _ h, rfl⟩
  · simp only [Bool.not_eq_true] at hfi
    rw [hfi]
    simp only [Bool.false_eq_true, if_false]
    exact stage3_c2 _ _ _ _ _ _ _ _ _ _ _ ⟨"", h, rfl⟩

/-- C2 amended: an empty descriptor token always makes generation fail with
an IndexError, but only after the output program file has been created and
the header block written, so a partial artifact is left on disk. -/
theorem c2_amended (l : List String) (csv fi json pg yaml lg srv : Bool) (out : String)
    (h : "" ∈ l) :
    (pystub (some l) csv fi json pg yaml lg srv out).error = some GenError.idxError
    ∧ (pystub (some l) csv fi json pg yaml lg srv out).progCreated = true
    ∧ (pystub (some l) csv fi json pg yaml lg srv out).progChunks ≠ [] := by
  simp only [pystub]
  rw [if_neg (by simp)]
  by_cases hs : srv = true
  · simp only [hs, if_true, Option.getD_some]
    exact stage2_c2 _ _ _ _ _ _ _ _ _ _ _ (List.mem_append_left _ h)
  · simp only [Bool.not_eq_true] at hs
    rw [hs]
    simp only [Bool.false_eq_true, if_false]
    exact stage2_c2 _ _ _ _ _ _ _ _ _ _ _ h

/-- C2 amended witness at a concrete input. -/
theorem c2_amended_witness :
    (pystub (some ["a", ""]) false false false false false false false "q").error
        = some GenError.idxError
    ∧ (pystub (some ["a", ""]) false false false false false false false "q").progCreated
        = true
    ∧ (pystub (some ["a", ""]) false false false false false false false "q").progChunks
        ≠ [] :=
  c2_amended ["a", ""] false false false false false false false "q" (by decide)

/-! ## Claim C3 -/

/-- C3 counterexample: for three descriptors sharing the first letter `c`,
the third (`cup`, rendered positionally as the last argument) receives the
upper-cased short form `-C` a second time instead of no short form, because
the used-set records only first letters, never the upper-cased fallback. -/
theorem c3_counterexample :
    ("    parser.add_argument(\"cup\", \"-C\")\n"
      ∈ (pystub (some ["cat", "cow", "cup"]) false false false false false false false
          "prog").progChunks)
    ∧ ("    parser.add_argument(\"cup\", \"-\")\n"
      ∉ (pystub (some ["cat", "cow", "cup"]) false false false false false false false
          "prog").progChunks) := by decide

/-- C3 amended: short names are allocated greedily in list order — in every
run of the CLI loop that completes, the emitted `add_argument` lines carry,
in order, exactly the short forms computed by the greedy allocator
`shortAllocTokens` (first letter if unrecorded, else its upper-cased form if
unrecorded, else the empty short form rendered as a bare `-`); the used-set
records exactly the first letters of the processed descriptors (never the
upper-cased fallback); the allocation rule holds for every used-set,
including that the empty short form occurs precisely when both the first
letter and its upper-cased form are already recorded; and, since only first
letters are recorded, a second and a third descriptor with the same first
letter both receive the upper-cased letter. -/
theorem c3_amended (n : Nat) (l : List String) (i : Nat) (st : CliState)
    (h : (cliLoop n i st l).err = Option.none) :
    List.Forall₂
      (fun ex ch => ∃ d a ac, (d = "" ∨ d = "--")
        ∧ ch = "    parser.add_argument(\"" ++ d ++ a ++ "\""
            ++ (", \"-" ++ ex ++ "\"") ++ ac ++ ")\n")
      (shortAllocTokens st.shortArgs l) (cliLoop n i st l).chunks
    ∧ (∀ c', c' ∈ (cliLoop n i st l).st.shortArgs
        ↔ c' ∈ st.shortArgs ∨ ∃ t ∈ l, (arg_name t).data.head? = some c')
    ∧ (∀ used c, (c ∉ used → shortFor used c = ⟨[c]⟩)
        ∧ (c ∈ used → c.toUpper ∉ used → shortFor used c = ⟨[c.toUpper]⟩)
        ∧ (shortFor used c = "" ↔ c ∈ used ∧ c.toUpper ∈ used))
    ∧ (∀ used c, c ∉ used → c.toUpper ∉ used → c ≠ c.toUpper →
        shortFor (sadd c used) c = ⟨[c.toUpper]⟩
        ∧ shortFor (sadd c (sadd c used)) c = ⟨[c.toUpper]⟩) := by
  refine ⟨cliLoop_chunks_alloc n l i st h, cliLoop_shortArgs n l i st h,
    shortFor_rule, ?_⟩
  intro used c h1 h2 h3
  exact ⟨(shortFor_three used c h1 h2 h3).2.1, (shortFor_three used c h1 h2 h3).2.2⟩

/-- C3 amended witness at the three-token input `cat`/`cow`/`cup`, starting
from an empty used-set. -/
theorem c3_amended_witness :
    (cliLoop 3 0 ⟨computeArgTypes ["cat", "cow", "cup"], [], []⟩
        ["cat", "cow", "cup"]).err = Option.none
    ∧ (List.Forall₂
        (fun ex ch => ∃ d a ac, (d = "" ∨ d = "--")
          ∧ ch = "    parser.add_argument(\"" ++ d ++ a ++ "\""
              ++ (", \"-" ++ ex ++ "\"") ++ ac ++ ")\n")
        (shortAllocTokens [] ["cat", "cow", "cup"])
        (cliLoop 3 0 ⟨computeArgTypes ["cat", "cow", "cup"], [], []⟩
          ["cat", "cow", "cup"]).chunks
      ∧ (∀ c', c' ∈ (cliLoop 3 0 ⟨computeArgTypes ["cat", "cow", "cup"], [], []⟩
            ["cat", "cow", "cup"]).st.shortArgs
          ↔ c' ∈ ([] : List Char)
            ∨ ∃ t ∈ ["cat", "cow", "cup"], (arg_name t).data.head? = some c')
      ∧ (∀ used c, (c ∉ used → shortFor used c = ⟨[c]⟩)
          ∧ (c ∈ used → c.toUpper ∉ used → shortFor used c = ⟨[c.toUpper]⟩)
          ∧ (shortFor used c = "" ↔ c ∈ used ∧ c.toUpper ∈ used))
      ∧ (∀ used c, c ∉ used → c.toUpper ∉ used → c ≠ c.toUpper →
          shortFor (sadd c used) c = ⟨[c.toUpper]⟩
          ∧ shortFor (sadd c (sadd c used)) c = ⟨[c.toUpper]⟩)) :=
  ⟨by decide, c3_amended 3 ["cat", "cow", "cup"] 0
    ⟨computeArgTypes ["cat", "cow", "cup"], [], []⟩ (by decide)⟩

/-! ## Claim C4 -/

/-- C4 counterexample: for the token `x.csv:` the claimed rule (each
modifier checked on the name part and then on the type part) would make `:`
on the type part win and render a `store_true` flag, but the source never
checks `:` on the type part, so no modifier takes effect and a plain
argument is rendered. -/
theorem c4_counterexample :
    claimedPickMod (arg_name "x.csv:") (arg_type "x.csv:") = some PyMod.colon
    ∧ pickMod (arg_name "x.csv:") (arg_type "x.csv:") = Option.none
    ∧ ("    parser.add_argument(\"x\", \"-x\")\n"
        ∈ (pystub (some ["x.csv:"]) false false false false false false false
            "prog").progChunks)
    ∧ ("    parser.add_argument(\"x\", \"-x\", action=\x27store_true\x27)\n"
        ∉ (pystub (some ["x.csv:"]) false false false false false false false
            "prog").progChunks) := by decide

/-- C4 amended: the modifiers are checked in priority order `+`, `*`, `:`,
`%`, where `+`, `*` and `%` are each checked on the name part and then on
the type part but `:` is checked on the name part only; exactly the first
matching modifier takes effect, and exactly that one character is stripped
from the name part. -/
theorem c4_amended :
    (∀ nm ty, pickMod nm ty = amendedPickMod nm ty)
    ∧ (∀ t m, pickMod (arg_name t) (arg_type t) = some m →
        loopStrip t = removesuffix (arg_name t) (modChar m))
    ∧ (∀ t, pickMod (arg_name t) (arg_type t) = Option.none →
        loopStrip t = arg_name t) := by
  refine ⟨?_, ?_, ?_⟩
  · intro nm ty
    unfold pickMod amendedPickMod
    by_cases h1 : (endswith nm '+' || tEnds ty '+') = true
    · simp [List.find?, h1, modChar, modOnType]
    · simp only [Bool.not_eq_true] at h1
      by_cases h2 : (endswith nm '*' || tEnds ty '*') = true
      · simp [List.find?, h1, h2, modChar, modOnType]
      · simp only [Bool.not_eq_true] at h2
        by_cases h3 : endswith nm ':' = true
        · simp [List.find?, h1, h2, h3, modChar, modOnType]
        · simp only [Bool.not_eq_true] at h3
          by_cases h4 : (endswith nm '%' || tEnds ty '%') = true
          · simp [List.find?, h1, h2, h3, h4, modChar, modOnType]
          · simp only [Bool.not_eq_true] at h4
            simp [List.find?, h1, h2, h3, h4, modChar, modOnType]
  · intro t m hm
    simp [loopStrip, hm]
  · intro t hm
    simp [loopStrip, hm]

/-- C4 amended witness at concrete inputs. -/
theorem c4_amended_witness :
    pickMod "x" (some "csv:") = amendedPickMod "x" (some "csv:")
    ∧ loopStrip "y+" = removesuffix (arg_name "y+") (modChar PyMod.plus) :=
  ⟨c4_amended.1 "x" (some "csv:"), c4_amended.2.1 "y+" PyMod.plus (by decide)⟩

/-! ## Claim C5 -/

/-- C5 counterexample: modifier stripping is not idempotent on every token:
for `x++` one stripping pass yields `x+` and a second pass yields `x`. -/
theorem c5_counterexample :
    without_flags (without_flags "x++") ≠ without_flags "x++" := by decide

/-- C5 amended: for a token consisting of a base that does not end in a
modifier character followed by exactly one trailing modifier character,
stripping removes exactly that character, and stripping is idempotent
there (and on every modifier-free token). -/
theorem c5_amended (s : String) (c : Char)
    (hc : c = '+' ∨ c = '*' ∨ c = ':' ∨ c = '%') (hs : endsInMod s = false) :
    without_flags (s.push c) = s
    ∧ without_flags (without_flags (s.push c)) = without_flags (s.push c)
    ∧ without_flags s = s := by
  have h1 := without_flags_push s c hc hs
  have h2 := without_flags_of_not s hs
  exact ⟨h1, by rw [h1, h2], h2⟩

/-- C5 amended witness at a concrete input. -/
theorem c5_amended_witness :
    without_flags ("x".push '+') = "x"
    ∧ without_flags (without_flags ("x".push '+')) = without_flags ("x".push '+')
    ∧ without_flags "x" = "x" :=
  c5_amended "x" '+' (Or.inl rfl) (by decide)

/-! ## Claim C7 -/

/-- C7 counterexample: with descriptors `["x.csv", "x"]` (no explicit
flags), the later duplicate name `x` overwrites the inferred `csv` type in
the `arg_types` dict before capabilities are read, so the csv capability is
inactive even though the descriptor `x.csv` declares the csv type. -/
theorem c7_counterexample :
    (pystub (some ["x.csv", "x"]) false false false false false false false "p").csvEff
        = false
    ∧ without_flagsO (arg_type "x.csv") = some "csv"
    ∧ "x.csv" ∈ ["x.csv", "x"] := by decide

/-- C7 amended: when the stripped descriptor names are pairwise distinct,
each serialization capability is active exactly when its explicit flag is
set or some descriptor declares that type (after modifier stripping),
regardless of descriptor order. -/
theorem c7_amended (args : Option (List String)) (csv fi json pg yaml lg srv : Bool)
    (out : String)
    (h : ((args.getD []).map fun t => without_flags (arg_name t)).Nodup) :
    ((pystub args csv fi json pg yaml lg srv out).csvEff = true
      ↔ csv = true ∨ ∃ t ∈ args.getD [], without_flagsO (arg_type t) = some "csv")
    ∧ ((pystub args csv fi json pg yaml lg srv out).jsonEff = true
      ↔ json = true ∨ ∃ t ∈ args.getD [], without_flagsO (arg_type t) = some "json")
    ∧ ((pystub args csv fi json pg yaml lg srv out).yamlEff = true
      ↔ yaml = true ∨ ∃ t ∈ args.getD [], without_flagsO (arg_type t) = some "yaml") := by
  obtain ⟨hcsv, hjson, hyaml⟩ := pystub_effs args csv fi json pg yaml lg srv out
  refine ⟨?_, ?_, ?_⟩
  · rw [hcsv, Bool.or_eq_true, values_contains_iff _ _ h]
  · rw [hjson, Bool.or_eq_true, values_contains_iff _ _ h]
  · rw [hyaml, Bool.or_eq_true, values_contains_iff _ _ h]

/-- C7 amended witness at a concrete input. -/
theorem c7_amended_witness :
    ((pystub (some ["a.json"]) false false false false false false false "p").csvEff = true
      ↔ false = true
        ∨ ∃ t ∈ (some ["a.json"] : Option (List String)).getD [],
            without_flagsO (arg_type t) = some "csv")
    ∧ ((pystub (some ["a.json"]) false false false false false false false "p").jsonEff = true
      ↔ false = true
        ∨ ∃ t ∈ (some ["a.json"] : Option (List String)).getD [],
            without_flagsO (arg_type t) = some "json")
    ∧ ((pystub (some ["a.json"]) false false false false false false false "p").yamlEff = true
      ↔ false = true
        ∨ ∃ t ∈ (some ["a.json"] : Option (List String)).getD [],
            without_flagsO (arg_type t) = some "yaml") :=
  c7_amended (some ["a.json"]) false false false false false false false "p" (by decide)

/-! ## Claim C8 -/

/-- C8: on every successful run, neither `output` nor `config` appears in
the parameter list of the generated core-logic function. -/
theorem c8_holds (args : Option (List String)) (csv fi json pg yaml lg srv : Bool)
    (out : String)
    (h : (pystub args csv fi json pg yaml lg srv out).error = Option.none) :
    "output" ∉ (pystub args csv fi json pg yaml lg srv out).coreParams
    ∧ "config" ∉ (pystub args csv fi json pg yaml lg srv out).coreParams := by
  obtain ⟨l3, at1, ia1, sofar, dirs0, heq, hconf, _⟩ :=
    pystub_shape args csv fi json pg yaml lg srv out h
  rw [heq]
  exact success_c8 l3 at1 ia1 sofar _ _ _ fi pg srv out dirs0 hconf

/-- C8 witness at a concrete input. -/
theorem c8_witness :
    "output" ∉ (pystub (some ["config.yaml", "output", "data"]) false false false false false
        false false "prog").coreParams
    ∧ "config" ∉ (pystub (some ["config.yaml", "output", "data"]) false false false false
        false false false "prog").coreParams :=
  c8_holds (some ["config.yaml", "output", "data"]) false false false false false false false
    "prog" (by decide)

/-! ## Claim C9 -/

/-- C9: with an absent (`None`) argument list and the server or fileinput
flag set, the generator fails with an AttributeError when it tries to
inject the synthetic descriptors into the absent list. -/
theorem c9_holds (csv fi json pg yaml lg srv : Bool) (out : String)
    (h : srv = true ∨ fi = true) :
    (pystub Option.none csv fi json pg yaml lg srv out).error
      = some GenError.attrErrorNone := by
  by_cases hs : srv = true
  · simp only [pystub]
    rw [if_pos ⟨hs, by trivial⟩]
  · have hf : fi = true := by
      rcases h with h | h
      · exact absurd h hs
      · exact h
    simp only [Bool.not_eq_true] at hs
    simp only [pystub, hs]
    rw [if_neg (by simp)]
    simp only [Bool.false_eq_true, if_false]
    simp only [pystubStage2]
    rw [if_pos ⟨hf, by trivial⟩]

/-- C9 witness at a concrete input. -/
theorem c9_witness :
    (pystub Option.none false true false false false false false "o").error
      = some GenError.attrErrorNone :=
  c9_holds false true false false false false false "o" (Or.inr rfl)

theorem contains_iff_mem (l : List String) (a : String) : l.contains a = true ↔ a ∈ l := by
  unfold List.contains
  exact List.elem_iff

theorem success_c6 (l3 : List String) (at1 : List (String × Option String))
    (ia1 sofar : List String) (csvE jsonE yamlE fi pg srv : Bool) (out : String)
    (dirs0 : List String)
    (hsofar : ∀ ch ∈ sofar, ch ∈ headerFixedChunks ∨ ch.data[4]? = some 'p') :
    ((l3.contains "config" && yamlE) = true →
      ("def " ++ progName out ++ "_" ++ "on_files" ++ "(" ++ pyJoin ", " l3
          ++ ", config_data" ++ "):\n")
        ∈ (pystubSuccess l3 at1 ia1 sofar csvE jsonE yamlE fi pg srv out dirs0).progChunks
      ∧ ("\n\ndef " ++ progName out ++ "_main(**args):\n")
        ∈ (pystubSuccess l3 at1 ia1 sofar csvE jsonE yamlE fi pg srv out dirs0).progChunks
      ∧ "        config = yaml.safeload(confstream)\n"
        ∈ (pystubSuccess l3 at1 ia1 sofar csvE jsonE yamlE fi pg srv out dirs0).progChunks)
    ∧ ((l3.contains "config" && yamlE) = false →
      ("def " ++ progName out ++ "_" ++ "main" ++ "(" ++ pyJoin ", " l3 ++ "):\n")
        ∈ (pystubSuccess l3 at1 ia1 sofar csvE jsonE yamlE fi pg srv out dirs0).progChunks
      ∧ "        config = yaml.safeload(confstream)\n"
        ∉ (pystubSuccess l3 at1 ia1 sofar csvE jsonE yamlE fi pg srv out
            dirs0).progChunks) := by
  constructor
  · intro hhc
    refine ⟨?_, ?_, ?_⟩ <;>
      · simp only [pystubSuccess, hhc, if_true, eq_self_iff_true]
        simp [List.mem_append]
  · intro hhc
    constructor
    · simp only [pystubSuccess, hhc, Bool.false_eq_true, if_false, eq_self_iff_true]
      simp [List.mem_append]
    · intro hmem
      simp only [pystubSuccess, hhc, Bool.false_eq_true, if_false] at hmem
      cases hl3 : l3.isEmpty <;> cases hfi : fi <;> cases hia : ia1.isEmpty <;>
        · simp only [hl3, hfi, hia, Bool.not_false, Bool.not_true, Bool.false_eq_true,
            Bool.true_eq_false, if_true, if_false, eq_self_iff_true,
            List.mem_append, List.mem_singleton, List.mem_cons, List.not_mem_nil,
            or_false, false_or, List.nil_append, List.append_nil] at hmem
          casesm* _ ∨ _
          all_goals rename_i hx
          all_goals
            first
              | exact absurd hx (by decide)
              | exact absurd (mem_ite_nil hx) (by decide)
              | (rcases hsofar _ hx with hfx | hfx
                 · exact absurd hfx (by decide)
                 · exact absurd hfx (by decide))
              | · have hx2 := mem_ite_nil hx
                  simp only [List.mem_cons, List.not_mem_nil, or_false] at hx2
                  rcases hx2 with h | h | h
                  · have h0 := congrArg (fun s : String => s.data.reverse[2]?) h
                    simp only [String.data_append, List.reverse_append,
                      List.append_assoc] at h0
                    rw [List.getElem?_append, if_pos (by decide)] at h0
                    exact absurd h0 (by decide)
                  · have h0 := congrArg (fun s : String => s.data[0]?) h
                    simp only [String.data_append, List.append_assoc] at h0
                    rw [List.getElem?_append, if_pos (by decide)] at h0
                    exact absurd h0 (by decide)
                  · have h0 := congrArg (fun s : String => s.data[0]?) h
                    simp only [String.data_append, List.append_assoc] at h0
                    rw [List.getElem?_append, if_pos (by decide)] at h0
                    exact absurd h0 (by decide)
              | · have h0 := congrArg (fun s : String => s.data[0]?) hx
                  simp only [String.data_append, List.append_assoc] at h0
                  rw [List.getElem?_append, if_pos (by decide)] at h0
                  exact absurd h0 (by decide)
              | · have h0 := congrArg (fun s : String => s.data[4]?) hx
                  simp only [String.data_append, List.append_assoc] at h0
                  rw [List.getElem?_append, if_pos (by decide)] at h0
                  exact absurd h0 (by decide)
              | · have h0 := congrArg (fun s : String => s.data[8]?) hx
                  simp only [String.data_append, List.append_assoc] at h0
                  rw [List.getElem?_append, if_pos (by decide)] at h0
                  exact absurd h0 (by decide)
              | · have h0 := congrArg (fun s : String => s.data.reverse[2]?) hx
                  simp only [String.data_append, List.reverse_append,
                    List.append_assoc] at h0
                  rw [List.getElem?_append, if_pos (by decide)] at h0
                  exact absurd h0 (by decide)
              | · obtain ⟨p, hp, hfp⟩ := List.mem_map.mp hx
                  have h0 := congrArg (fun s : String => s.data[8]?) hfp
                  simp only [String.data_append, List.append_assoc] at h0
                  rw [List.getElem?_append, if_pos (by decide)] at h0
                  exact absurd h0 (by decide)

/-! ## Claim C6 -/

/-- C6: on every successful run, config-wrapper mode (`has_config`) is
active exactly when a finalized descriptor named `config` exists and the
yaml capability is active; when active, the orchestration wrapper is named
`<progname>_on_files` and a second wrapper `<progname>_main` performing
the config load is emitted; when inactive, the single orchestration
wrapper is named `<progname>_main` and no config-load line is emitted. -/
theorem c6_holds (args : Option (List String)) (csv fi json pg yaml lg srv : Bool)
    (out : String)
    (h : (pystub args csv fi json pg yaml lg srv out).error = Option.none) :
    ((pystub args csv fi json pg yaml lg srv out).hasConfig = true
      ↔ ("config" ∈ (pystub args csv fi json pg yaml lg srv out).finalArgs.getD []
          ∧ (pystub args csv fi json pg yaml lg srv out).yamlEff = true))
    ∧ ((pystub args csv fi json pg yaml lg srv out).hasConfig = true →
        ("def " ++ progName out ++ "_" ++ "on_files" ++ "("
            ++ pyJoin ", " ((pystub args csv fi json pg yaml lg srv out).finalArgs.getD [])
            ++ ", config_data" ++ "):\n")
          ∈ (pystub args csv fi json pg yaml lg srv out).progChunks
        ∧ ("\n\ndef " ++ progName out ++ "_main(**args):\n")
          ∈ (pystub args csv fi json pg yaml lg srv out).progChunks
        ∧ "        config = yaml.safeload(confstream)\n"
          ∈ (pystub args csv fi json pg yaml lg srv out).progChunks)
    ∧ ((pystub args csv fi json pg yaml lg srv out).hasConfig = false →
        ("def " ++ progName out ++ "_" ++ "main" ++ "("
            ++ pyJoin ", " ((pystub args csv fi json pg yaml lg srv out).finalArgs.getD [])
            ++ "):\n")
          ∈ (pystub args csv fi json pg yaml lg srv out).progChunks
        ∧ "        config = yaml.safeload(confstream)\n"
          ∉ (pystub args csv fi json pg yaml lg srv out).progChunks) := by
  obtain ⟨l3, at1, ia1, sofar, dirs0, heq, hconf, hsofar, -⟩ :=
    pystub_shape args csv fi json pg yaml lg srv out h
  rw [heq]
  simp only [success_finalArgs, Option.getD_some, success_hasConfig, success_yamlEff]
  obtain ⟨hpos, hneg⟩ := success_c6 l3 at1 ia1 sofar _ _ _ fi pg srv out dirs0 hsofar
  refine ⟨?_, hpos, hneg⟩
  rw [Bool.and_eq_true, contains_iff_mem]

/-- C6 witness at a concrete input (config-wrapper mode active via a
`config.yaml` descriptor). -/
theorem c6_witness :
    ((pystub (some ["config.yaml", "data"]) false false false false false false false
        "prog").hasConfig = true
      ↔ ("config" ∈ (pystub (some ["config.yaml", "data"]) false false false false false
            false false "prog").finalArgs.getD []
          ∧ (pystub (some ["config.yaml", "data"]) false false false false false false false
              "prog").yamlEff = true))
    ∧ ((pystub (some ["config.yaml", "data"]) false false false false false false false
          "prog").hasConfig = true →
        ("def " ++ progName "prog" ++ "_" ++ "on_files" ++ "("
            ++ pyJoin ", " ((pystub (some ["config.yaml", "data"]) false false false false
                false false false "prog").finalArgs.getD [])
            ++ ", config_data" ++ "):\n")
          ∈ (pystub (some ["config.yaml", "data"]) false false false false false false false
              "prog").progChunks
        ∧ ("\n\ndef " ++ progName "prog" ++ "_main(**args):\n")
          ∈ (pystub (some ["config.yaml", "data"]) false false false false false false false
              "prog").progChunks
        ∧ "        config = yaml.safeload(confstream)\n"
          ∈ (pystub (some ["config.yaml", "data"]) false false false false false false false
              "prog").progChunks)
    ∧ ((pystub (some ["config.yaml", "data"]) false false false false false false false
          "prog").hasConfig = false →
        ("def " ++ progName "prog" ++ "_" ++ "main" ++ "("
            ++ pyJoin ", " ((pystub (some ["config.yaml", "data"]) false false false false
                false false false "prog").finalArgs.getD [])
            ++ "):\n")
          ∈ (pystub (some ["config.yaml", "data"]) false false false false false false false
              "prog").progChunks
        ∧ "        config = yaml.safeload(confstream)\n"
          ∉ (pystub (some ["config.yaml", "data"]) false false false false false false false
              "prog").progChunks) :=
  c6_holds (some ["config.yaml", "data"]) false false false false false false false "prog"
    (by decide)

/-! ## Claim C10 -/

/-- C10: with the fileinput flag set and an empty (but present) argument
list, the synthetic `inputspec+` descriptor is injected after the
argparse-import decision has been made: the generated program contains the
CLI-parsing block with `inputspec` as its only, positional (no `--` prefix)
argument, but does not contain the `import argparse` line. -/
theorem c10_holds (csv json pg yaml lg : Bool) (out : String) :
    ("    parser.add_argument(\"inputspec\", \"-i\", action=\x27append\x27)\n"
      ∈ (pystub (some []) csv true json pg yaml lg false out).progChunks)
    ∧ ("\ndef get_args():\n    parser = argparse.ArgumentParser()\n"
      ∈ (pystub (some []) csv true json pg yaml lg false out).progChunks)
    ∧ ("import argparse\n" ∉ (pystub (some []) csv true json pg yaml lg false out).progChunks)
    ∧ (pystub (some []) csv true json pg yaml lg false out).finalArgs
      = some ["inputspec"] := by
  have hgd : ((some ([] : List String)).getD []) = [] := rfl
  have ht : truthy (some ([] : List String)) = false := rfl
  simp only [pystub, hgd]
  rw [if_neg (by simp)]
  simp only [Bool.false_eq_true, if_false]
  simp only [pystubStage2]
  rw [if_neg (by simp)]
  simp only [ht, Bool.false_eq_true, if_false, if_true, List.nil_append, hgd]
  simp only [pystubStage3]
  rw [if_neg (by decide)]
  have hloop : cliLoop (List.length ["inputspec+"]) 0 ⟨computeArgTypes [], [], []⟩
      ["inputspec+"]
      = ⟨["inputspec"], ⟨[], [], ['i']⟩,
         ["    parser.add_argument(\"inputspec\", \"-i\", action=\x27append\x27)\n"],
         Option.none⟩ := by decide
  simp only [hloop]
  refine ⟨?_, ?_, ?_, ?_⟩
  · simp [pystubSuccess]
  · simp [pystubSuccess]
  · intro hmem
    have e1 : (["inputspec"].contains "config") = false := rfl
    have e2 : (["inputspec"].contains "output") = false := rfl
    have e3 : (List.isEmpty ["inputspec"]) = false := rfl
    have e4 : ∀ a, dictHas ([] : List (String × Option String)) a = false := fun a => rfl
    have e5 : List.filter (fun k => k != "config" && k != "output")
        (dictKeys ([] : List (String × Option String))) = [] := rfl
    have e6 : List.filter (fun a => !dictHas ([] : List (String × Option String)) a
        && a != "output") ["inputspec"] = ["inputspec"] := rfl
    have e7 : pyJoin ", " ["inputspec"] = "inputspec" := rfl
    have e8 : (List.filter (fun p => p.1 != "config" && p.1 != "output")
        ([] : List (String × Option String))) = [] := rfl
    simp only [pystubSuccess, e1, e2, e3, e4, e5, e6, e7, e8, Bool.false_and,
      Bool.false_eq_true, Bool.not_false, Bool.and_self, if_false, if_true,
      eq_self_iff_true, List.filter_nil, List.map_nil, List.nil_append,
      List.append_nil, List.mem_append, List.mem_singleton, List.mem_cons,
      List.not_mem_nil, or_false, false_or] at hmem
    casesm* _ ∨ _
    all_goals rename_i hx
    all_goals
      first
        | exact absurd hx (by decide)
        | exact absurd (mem_fixed_of_ite hx) (by decide)
        | · have h0 := congrArg (fun s : String => s.data[0]?) hx
            simp only [String.data_append, List.append_assoc] at h0
            rw [List.getElem?_append, if_pos (by decide)] at h0
            exact absurd h0 (by decide)
  · rfl

end Stubmaker
